import Mathlib

/-!
Slurg, the region selector of `main.c`.

A shallow embedding of `src/main.c`.  Heap objects (`struct slurg_output`,
`struct slurg_pointer`) live in append-only heaps and are addressed by their
index; the two `wl_list`s of the session hold such addresses.  Every call that
leaves the program (Wayland requests, the renderer, the buffer pool, `free`,
the standard streams) is recorded, in program order, in a trace of `Effect`s.
-/

namespace Slurg

/-! ## C `int` arithmetic -/

/-- The largest value of the 32-bit type `int`. -/
def INT_MAX : Int := 2147483647

/-- The smallest value of the 32-bit type `int`. -/
def INT_MIN : Int := -2147483648

/-- The exit status of a successful run (`stdlib.h`). -/
def EXIT_SUCCESS : Nat := 0

/-- The exit status of a failed run (`stdlib.h`). -/
def EXIT_FAILURE : Nat := 1

/-- The 32-bit two's complement `int` a mathematical integer wraps to. -/
def wrap_int (n : Int) : Int := (n + 2147483648) % 4294967296 - 2147483648

/-- Subtraction `a - b` on `int`, wrapping modulo 2^32. -/
def int_sub (a b : Int) : Int := wrap_int (a - b)

/-- The libc function `abs` on `int`, wrapping modulo 2^32 (so `abs INT_MIN = INT_MIN`). -/
def abs (a : Int) : Int := wrap_int (if a < 0 then -a else a)

/-- The static function `min` (main.c, lines 91-93). -/
def min (a b : Int) : Int := if a < b then a else b

/-- The inline helper `wl_fixed_to_int` of libwayland (`wayland-util.h`): `return f / 256;`
on a 24.8 signed fixed-point number, C division truncating toward zero. -/
def wl_fixed_to_int (f : Int) : Int := Int.tdiv f 256

/-- The inverse helper `wl_fixed_from_int` of libwayland: `return i * 256;`. -/
def wl_fixed_from_int (i : Int) : Int := i * 256

/-- The conversion of a `uint32_t` to `int32_t`, as at an assignment or a call: the value
modulo 2^32 (gcc). -/
def int32_of_uint32 (n : Nat) : Int := wrap_int n

/-! ## Protocol constants

Values and interface names from the Wayland, wlr-layer-shell and libc headers that main.c
includes. -/

def WL_POINTER_BUTTON_STATE_RELEASED : Nat := 0

def WL_POINTER_BUTTON_STATE_PRESSED : Nat := 1

def WL_SEAT_CAPABILITY_POINTER : Nat := 1

def ZWLR_LAYER_SURFACE_V1_ANCHOR_TOP : Nat := 1

def ZWLR_LAYER_SURFACE_V1_ANCHOR_BOTTOM : Nat := 2

def ZWLR_LAYER_SURFACE_V1_ANCHOR_LEFT : Nat := 4

def ZWLR_LAYER_SURFACE_V1_ANCHOR_RIGHT : Nat := 8

def wl_compositor_interface_name : String := "wl_compositor"

def wl_shm_interface_name : String := "wl_shm"

def zwlr_layer_shell_v1_interface_name : String := "zwlr_layer_shell_v1"

def wl_seat_interface_name : String := "wl_seat"

def wl_output_interface_name : String := "wl_output"

/-! ## Data model (`slurg.h`) -/

/-- Modelled from the spec: the header `slurg.h` is absent; this is the rectangle type of
`state->result`, with the four `int` members main.c reads and writes. -/
structure slurg_box where
  x : Int
  y : Int
  width : Int
  height : Int
deriving DecidableEq, Repr

/-- Modelled from the spec: the header `slurg.h` is absent; the members are those main.c
uses.  `wl_pointer` is the protocol object handle, `freed` is a ghost flag set by `free`. -/
structure slurg_pointer where
  wl_pointer : Nat
  x : Int
  y : Int
  pressed_x : Int
  pressed_y : Int
  button_state : Nat
  freed : Bool
deriving DecidableEq, Repr

/-- Modelled from the spec: the header `slurg.h` is absent; the members are those main.c
uses.  Handles are `none` while the C member is `NULL`; `width` and `height` are
`int32_t`, the type of the size parameters of `wl_surface_damage` they are passed as;
`freed` is a ghost flag set by `free`. -/
structure slurg_output where
  wl_output : Nat
  surface : Option Nat
  layer_surface : Option Nat
  configured : Bool
  width : Int
  height : Int
  current_buffer : Option Nat
  freed : Bool
deriving DecidableEq, Repr

/-- Modelled from the spec: the header `slurg.h` is absent; the members are those main.c
uses.  `outputs` and `pointers` are the two `wl_list`s, as lists of heap addresses
starting at the list head; `output_heap` and `pointer_heap` are the memory the addresses
point into.  `undefined_behaviour` is a ghost flag: it is set, and stays set, once the
program has used freed memory, freed memory a second time or issued a request on a `NULL`
protocol object; from then on C leaves the behaviour of the run undefined and the model
only follows what the code would do if freed memory kept its contents. -/
structure slurg_state where
  compositor : Option Nat
  shm : Option Nat
  layer_shell : Option Nat
  output_heap : List slurg_output
  outputs : List Nat
  pointer_heap : List slurg_pointer
  pointers : List Nat
  running : Bool
  result : slurg_box
  undefined_behaviour : Bool
deriving DecidableEq, Repr

/-- Calls that leave the program.  Surfaces and layer surfaces are named by the address
of the output that owns them; `render` records the session it is handed, the output whose
buffer it paints and the buffer. -/
inductive Effect where
  | wl_registry_bind (name : Nat) (interface : String) (version : Nat)
  | wl_seat_add_listener (seat : Nat)
  | wl_seat_get_pointer (seat : Nat)
  | wl_pointer_add_listener (pointer : Nat)
  | wl_pointer_destroy (pointer : Nat)
  | free_pointer (pointer : Nat)
  | get_next_buffer (output : Nat) (width height : Int)
  | render (state : slurg_state) (output : Nat) (buffer : Nat)
  | wl_surface_attach (output : Nat) (buffer : Nat)
  | wl_surface_damage (output : Nat) (x y width height : Int)
  | wl_surface_commit (output : Nat)
  | zwlr_layer_surface_v1_ack_configure (output : Nat) (serial : Nat)
  | zwlr_layer_surface_v1_destroy (output : Nat)
  | wl_surface_destroy (output : Nat)
  | wl_output_destroy (output : Nat)
  | free_output (output : Nat)
  | wl_compositor_create_surface (output : Nat)
  | zwlr_layer_shell_v1_get_layer_surface (output : Nat)
  | zwlr_layer_surface_v1_add_listener (output : Nat)
  | zwlr_layer_surface_v1_set_anchor (output : Nat) (anchor : Nat)
  | zwlr_layer_surface_v1_set_exclusive_zone (output : Nat) (zone : Int)
  | fprintf_stderr (text : String)
  | printf_stdout (text : String)
deriving DecidableEq, Repr

/-- The session together with everything it has done so far. -/
structure World where
  state : slurg_state
  trace : List Effect
deriving DecidableEq, Repr

/-- The buffer pool `get_next_buffer` (declared in `render.h`, not part of main.c) as an
oracle: given everything done so far, the requesting output and the requested size, it
hands out a buffer or `NULL`. -/
abbrev BufferPool := List Effect → Nat → Int → Int → Option Nat

/-- Events the display connection delivers once the overlay surfaces exist, with the
arguments of the listener they reach.  Pointers and outputs are named by heap address;
`surface_x` and `surface_y` are `wl_fixed_t` values.  A `seat_capabilities` event also
carries what the environment answers inside the handler: the object `wl_seat_get_pointer`
returns and whether `calloc` succeeds. -/
inductive Event where
  | global (name : Nat) (interface : String) (version : Nat)
  | seat_capabilities (seat : Nat) (capabilities : Nat) (wl_pointer : Nat) (calloc_ok : Bool)
  | pointer_motion (pointer : Nat) (time : Nat) (surface_x surface_y : Int)
  | pointer_button (pointer : Nat) (serial time button button_state : Nat)
  | layer_surface_configure (output : Nat) (serial width height : Nat)
  | layer_surface_closed (output : Nat)
deriving DecidableEq, Repr

/-- Events of the startup handshake: before main.c creates its surfaces and registers the
layer-surface listeners, only the registry and the seats it bound can call back. -/
inductive RegistryEvent where
  | global (name : Nat) (interface : String) (version : Nat)
  | seat_capabilities (seat : Nat) (capabilities : Nat) (wl_pointer : Nat) (calloc_ok : Bool)
deriving DecidableEq, Repr

/-- What the environment does during one run of the program: whether
`wl_display_connect` succeeds, the events of the startup handshake, and what each later
call of `wl_display_dispatch` brings - `none` for the return value `-1`, `some events` for
a batch of dispatched events. -/
structure Env where
  connect_ok : Bool
  handshake : List RegistryEvent
  batches : List (Option (List Event))

/-- The exit status of `main` and the world it leaves behind. -/
structure Exit where
  status : Nat
  world : World
deriving DecidableEq, Repr

/-! ## Heap access -/

/-- The world after the calls `es` have been made, in order. -/
def emit (w : World) (es : List Effect) : World :=
  { w with trace := w.trace ++ es }

/-- A write to the output at address `output`. -/
def store_output (w : World) (output : Nat) (o : slurg_output) : World :=
  { w with state := { w.state with output_heap := w.state.output_heap.set output o } }

/-- The world after a step whose behaviour C leaves undefined when `condition` holds. -/
def undefined_if (w : World) (condition : Bool) : World :=
  { w with state := { w.state with
      undefined_behaviour := w.state.undefined_behaviour || condition } }

/-- Whether the first element of `state->outputs` is freed memory. -/
def first_output_freed (s : slurg_state) : Bool :=
  match s.outputs with
  | [] => false
  | output :: _ =>
    match s.output_heap[output]? with
    | none => false
    | some o => o.freed

/-- A write to the pointer at address `pointer`. -/
def store_pointer (w : World) (pointer : Nat) (p : slurg_pointer) : World :=
  { w with state := { w.state with pointer_heap := w.state.pointer_heap.set pointer p } }

/-! ## main.c

Every handler takes the world and the address of the object its `data` argument points
to.  An address outside the heap names no object, no event can carry it, and the handlers
leave the world as it is.  Memory that has been freed keeps its last contents, and every
use of it sets `undefined_behaviour`.  Pointers are freed by the teardown of `main` only,
once each. -/

/-- The function `pointer_get_box` (main.c, lines 95-101); the four out-parameters are
returned as one rectangle. -/
def pointer_get_box (pointer : slurg_pointer) : slurg_box :=
  { x := Slurg.min pointer.pressed_x pointer.x
    y := Slurg.min pointer.pressed_y pointer.y
    width := Slurg.abs (int_sub pointer.x pointer.pressed_x)
    height := Slurg.abs (int_sub pointer.y pointer.pressed_y) }

/-- The function `send_frame` (main.c, lines 119-137).  Its behaviour is undefined when the
output has been freed, and when it comes to attach a buffer to a surface that is `NULL`. -/
def send_frame (pool : BufferPool) (w : World) (output : Nat) : World :=
  match w.state.output_heap[output]? with
  | none => w
  | some o =>
    if o.configured = false then undefined_if w o.freed
    else
      let current_buffer := pool w.trace output o.width o.height
      let w1 := emit (store_output
          (undefined_if w (o.freed || (current_buffer.isSome && o.surface.isNone)))
          output { o with current_buffer := current_buffer })
        [Effect.get_next_buffer output o.width o.height]
      match current_buffer with
      | none => w1
      | some buffer =>
        emit w1 [Effect.render w1.state output buffer,
          Effect.wl_surface_attach output buffer,
          Effect.wl_surface_damage output 0 0 o.width o.height,
          Effect.wl_surface_commit output]

/-- The loop `wl_list_for_each(output, &state->outputs, link) send_frame(output);`. -/
def send_frame_each (pool : BufferPool) (w : World) : World :=
  w.state.outputs.foldl (send_frame pool) w

/-- The function `pointer_handle_motion` (main.c, lines 20-35). -/
def pointer_handle_motion (pool : BufferPool) (w : World) (pointer : Nat)
    (surface_x surface_y : Int) : World :=
  match w.state.pointer_heap[pointer]? with
  | none => w
  | some p =>
    let w1 := store_pointer w pointer
      { p with x := wl_fixed_to_int surface_x, y := wl_fixed_to_int surface_y }
    if p.button_state = WL_POINTER_BUTTON_STATE_PRESSED then send_frame_each pool w1
    else w1

/-- The function `pointer_handle_button` (main.c, lines 37-61). -/
def pointer_handle_button (pool : BufferPool) (w : World) (pointer : Nat)
    (button_state : Nat) : World :=
  match w.state.pointer_heap[pointer]? with
  | none => w
  | some p =>
    let p1 := { p with button_state := button_state }
    let w1 := store_pointer w pointer p1
    if button_state = WL_POINTER_BUTTON_STATE_PRESSED then
      send_frame_each pool
        (store_pointer w1 pointer { p1 with pressed_x := p1.x, pressed_y := p1.y })
    else if button_state = WL_POINTER_BUTTON_STATE_RELEASED then
      { w1 with state := { w1.state with result := pointer_get_box p1, running := false } }
    else w1

/-- The function `create_pointer` (main.c, lines 71-83); `calloc_ok` tells whether
`calloc` returned memory. -/
def create_pointer (w : World) (wl_pointer : Nat) (calloc_ok : Bool) : World :=
  if calloc_ok = false then emit w [Effect.fprintf_stderr "allocation failed\n"]
  else
    let pointer := w.state.pointer_heap.length
    let w1 : World := { w with state := { w.state with
      pointer_heap := w.state.pointer_heap ++
        [{ wl_pointer := wl_pointer, x := 0, y := 0, pressed_x := 0, pressed_y := 0,
           button_state := 0, freed := false }]
      pointers := pointer :: w.state.pointers } }
    emit w1 [Effect.wl_pointer_add_listener pointer]

/-- The function `destroy_pointer` (main.c, lines 85-89). -/
def destroy_pointer (w : World) (pointer : Nat) : World :=
  match w.state.pointer_heap[pointer]? with
  | none => w
  | some p =>
    let w1 : World := { w with state := { w.state with
      pointers := w.state.pointers.erase pointer } }
    emit (store_pointer w1 pointer { p with freed := true })
      [Effect.wl_pointer_destroy pointer, Effect.free_pointer pointer]

/-- The function `seat_handle_capabilities` (main.c, lines 104-112). -/
def seat_handle_capabilities (w : World) (seat capabilities wl_pointer : Nat)
    (calloc_ok : Bool) : World :=
  if capabilities &&& WL_SEAT_CAPABILITY_POINTER ≠ 0 then
    create_pointer (emit w [Effect.wl_seat_get_pointer seat]) wl_pointer calloc_ok
  else w

/-- The function `destroy_output` (main.c, lines 139-147); an address is never `NULL`.
Its behaviour is undefined when the output has been freed before (use after free, second
`free`) and when the surface or the layer surface it destroys is `NULL`.  The output is not
taken off `state->outputs`. -/
def destroy_output (w : World) (output : Nat) : World :=
  match w.state.output_heap[output]? with
  | none => w
  | some o =>
    emit (store_output
        (undefined_if w (o.freed || o.layer_surface.isNone || o.surface.isNone))
        output { o with freed := true })
      [Effect.zwlr_layer_surface_v1_destroy output, Effect.wl_surface_destroy output,
       Effect.wl_output_destroy output, Effect.free_output output]

/-- The function `layer_surface_handle_configure` (main.c, lines 150-161); the `uint32_t`
sizes of the event are converted to the `int32_t` members. -/
def layer_surface_handle_configure (pool : BufferPool) (w : World) (output : Nat)
    (serial width height : Nat) : World :=
  match w.state.output_heap[output]? with
  | none => w
  | some o =>
    let w1 := store_output w output
      { o with configured := true, width := int32_of_uint32 width,
               height := int32_of_uint32 height }
    send_frame pool (emit w1 [Effect.zwlr_layer_surface_v1_ack_configure output serial])
      output

/-- The function `layer_surface_handle_closed` (main.c, lines 163-167). -/
def layer_surface_handle_closed (w : World) (output : Nat) : World :=
  destroy_output w output

/-- The function `handle_global` (main.c, lines 175-201).  The `calloc` of the output
branch is not checked by the source and is taken to succeed; `wl_list_insert` writes to
the first element of the list, which is undefined when that element has been freed. -/
def handle_global (w : World) (name : Nat) (interface : String) : World :=
  if interface = wl_compositor_interface_name then
    emit { w with state := { w.state with compositor := some name } }
      [Effect.wl_registry_bind name wl_compositor_interface_name 4]
  else if interface = wl_shm_interface_name then
    emit { w with state := { w.state with shm := some name } }
      [Effect.wl_registry_bind name wl_shm_interface_name 1]
  else if interface = zwlr_layer_shell_v1_interface_name then
    emit { w with state := { w.state with layer_shell := some name } }
      [Effect.wl_registry_bind name zwlr_layer_shell_v1_interface_name 1]
  else if interface = wl_seat_interface_name then
    emit w [Effect.wl_registry_bind name wl_seat_interface_name 1,
      Effect.wl_seat_add_listener name]
  else if interface = wl_output_interface_name then
    let output := w.state.output_heap.length
    emit { w with state := { w.state with
      output_heap := w.state.output_heap ++
        [{ wl_output := name, surface := none, layer_surface := none, configured := false,
           width := 0, height := 0, current_buffer := none, freed := false }]
      outputs := output :: w.state.outputs
      undefined_behaviour := w.state.undefined_behaviour || first_output_freed w.state } }
      [Effect.wl_registry_bind name wl_output_interface_name 3]
  else w

/-- Dispatch of one handshake event to its listener. -/
def dispatch_registry (w : World) : RegistryEvent → World
  | RegistryEvent.global name interface _ => handle_global w name interface
  | RegistryEvent.seat_capabilities seat capabilities wl_pointer calloc_ok =>
    seat_handle_capabilities w seat capabilities wl_pointer calloc_ok

/-- Dispatch of one event to its listener (the listener tables of main.c). -/
def dispatch (pool : BufferPool) (w : World) : Event → World
  | Event.global name interface _ => handle_global w name interface
  | Event.seat_capabilities seat capabilities wl_pointer calloc_ok =>
    seat_handle_capabilities w seat capabilities wl_pointer calloc_ok
  | Event.pointer_motion pointer _ surface_x surface_y =>
    pointer_handle_motion pool w pointer surface_x surface_y
  | Event.pointer_button pointer _ _ _ button_state =>
    pointer_handle_button pool w pointer button_state
  | Event.layer_surface_configure output serial width height =>
    layer_surface_handle_configure pool w output serial width height
  | Event.layer_surface_closed output => layer_surface_handle_closed w output

/-- One successful `wl_display_dispatch`: every queued event runs to completion, in
order. -/
def dispatch_batch (pool : BufferPool) (w : World) (events : List Event) : World :=
  events.foldl (dispatch pool) w

/-- The body of the surface creation loop of `main` (main.c, lines 242-259). -/
def create_layer_surface (w : World) (output : Nat) : World :=
  match w.state.output_heap[output]? with
  | none => w
  | some o =>
    emit (store_output w output { o with surface := some output, layer_surface := some output })
      [Effect.wl_compositor_create_surface output,
       Effect.zwlr_layer_shell_v1_get_layer_surface output,
       Effect.zwlr_layer_surface_v1_add_listener output,
       Effect.zwlr_layer_surface_v1_set_anchor output
         (ZWLR_LAYER_SURFACE_V1_ANCHOR_TOP ||| ZWLR_LAYER_SURFACE_V1_ANCHOR_LEFT |||
          ZWLR_LAYER_SURFACE_V1_ANCHOR_RIGHT ||| ZWLR_LAYER_SURFACE_V1_ANCHOR_BOTTOM),
       Effect.zwlr_layer_surface_v1_set_exclusive_zone output (-1),
       Effect.wl_surface_commit output]

/-- The session as `main` declares it: `struct slurg_state state = {0}` with both lists
initialised empty. -/
def initial_state : slurg_state :=
  { compositor := none, shm := none, layer_shell := none, output_heap := [], outputs := [],
    pointer_heap := [], pointers := [], running := false,
    result := { x := 0, y := 0, width := 0, height := 0 }, undefined_behaviour := false }

/-- The exits `fprintf(stderr, message); return EXIT_FAILURE;` of `main`. -/
def fail (w : World) (message : String) : Exit :=
  { status := EXIT_FAILURE, world := emit w [Effect.fprintf_stderr message] }

/-- Lines 209-261 of `main`: connection, registry handshake, the four startup checks, one
overlay surface per output, `state.running = true`.  An early `return EXIT_FAILURE` is
`Except.error`. -/
def main_setup (env : Env) : Except Exit World :=
  let w0 : World := { state := initial_state, trace := [] }
  if env.connect_ok = false then Except.error (fail w0 "failed to create display\n")
  else
    let w1 := env.handshake.foldl dispatch_registry w0
    if w1.state.compositor = none then
      Except.error (fail w1 "compositor doesn't support wl_compositor\n")
    else if w1.state.shm = none then
      Except.error (fail w1 "compositor doesn't support wl_shm\n")
    else if w1.state.layer_shell = none then
      Except.error (fail w1 "compositor doesn't support zwlr_layer_shell_v1\n")
    else if w1.state.outputs.isEmpty then
      Except.error (fail w1 "no wl_output\n")
    else
      let w2 := w1.state.outputs.foldl create_layer_surface w1
      Except.ok { w2 with state := { w2.state with running := true } }

/-- Line 262 of `main`: `while (state.running && wl_display_dispatch(state.display) != -1)`.
Each element of `batches` is one call of `wl_display_dispatch`: `none` is the return value
`-1`, `some events` the events it dispatched.  When the environment has nothing more to
deliver the call blocks forever and the loop yields `none`. -/
def event_loop (pool : BufferPool) (w : World) : List (Option (List Event)) → Option World
  | [] => if w.state.running = false then some w else none
  | batch :: batches =>
    if w.state.running = false then some w
    else
      match batch with
      | none => some w
      | some events => event_loop pool (dispatch_batch pool w events) batches

/-- The text `printf("%d,%d %dx%d\n", ...)` writes for a rectangle. -/
def format_box (box : slurg_box) : String :=
  toString box.x ++ "," ++ toString box.y ++ " " ++ toString box.width ++ "x" ++
    toString box.height ++ "\n"

/-- Lines 266-273 of `main`: the two `wl_list_for_each_safe` loops that destroy every
pointer and every output still in the session's lists. -/
def teardown (w : World) : World :=
  let w1 := w.state.pointers.foldl destroy_pointer w
  w1.state.outputs.foldl destroy_output w1

/-- Lines 266-282 of `main`: teardown, then the report. -/
def main_finish (w : World) : Exit :=
  let w2 := teardown w
  if w2.state.result.width = 0 ∧ w2.state.result.height = 0 then
    fail w2 "selection cancelled\n"
  else
    { status := EXIT_SUCCESS,
      world := emit w2 [Effect.printf_stdout (format_box w2.state.result)] }

/-- The function `main` (main.c, lines 208-282).  The result is `none` when the program
never returns because it waits for events that do not come.  An exit whose world has
`undefined_behaviour` set is not an exit the C program is bound to reach. -/
def main (pool : BufferPool) (env : Env) : Option Exit :=
  match main_setup env with
  | Except.error e => some e
  | Except.ok w =>
    match event_loop pool w env.batches with
    | none => none
    | some w1 => some (main_finish w1)

/-- Everything written to standard output, in order. -/
def stdout_text : List Effect → String
  | [] => ""
  | Effect.printf_stdout text :: es => text ++ stdout_text es
  | _ :: es => stdout_text es

/-! ## Vocabulary of the statements -/

/-- An output with its `current_buffer` member blanked. -/
def forget_buffer (o : slurg_output) : slurg_output := { o with current_buffer := none }

/-- The session with the `current_buffer` member of every output and the ghost flag
blanked: all of the session that `send_frame` never writes. -/
def session_view (s : slurg_state) : slurg_state :=
  { s with output_heap := s.output_heap.map forget_buffer, undefined_behaviour := false }

/-- The effects of one run of `send_frame` on a configured output of size
`width` x `height` to which the pool hands the buffer `b`, the renderer being handed the
session `st`. -/
def painted_frame (st : slurg_state) (a : Nat) (width height : Int) (b : Nat) : List Effect :=
  [Effect.get_next_buffer a width height, Effect.render st a b,
   Effect.wl_surface_attach a b, Effect.wl_surface_damage a 0 0 width height,
   Effect.wl_surface_commit a]

/-- The effects `new` that a run of `send_frame` over the outputs `outputs`, in list order,
adds to the trace `before`, where `ref` is the session the run starts from: nothing for
an output that is not configured; the buffer request alone for a configured output to
which the pool hands no buffer; and for a configured output to which the pool hands a
buffer the request, one render call that paints from a session agreeing with `ref`, and
the attach, damage and commit of its surface. -/
inductive frames_sent (pool : BufferPool) (ref : slurg_state) :
    List Effect → List Nat → List Effect → Prop where
  | done (before : List Effect) : frames_sent pool ref before [] []
  | skipped (before : List Effect) (a : Nat) (rest : List Nat) (new : List Effect)
      (hskip : ∀ o, ref.output_heap[a]? = some o → o.configured = false)
      (hrest : frames_sent pool ref before rest new) :
      frames_sent pool ref before (a :: rest) new
  | denied (before : List Effect) (a : Nat) (rest : List Nat) (new : List Effect)
      (o : slurg_output) (ho : ref.output_heap[a]? = some o) (hc : o.configured = true)
      (hpool : pool before a o.width o.height = none)
      (hrest : frames_sent pool ref
        (before ++ [Effect.get_next_buffer a o.width o.height]) rest new) :
      frames_sent pool ref before (a :: rest)
        (Effect.get_next_buffer a o.width o.height :: new)
  | painted (before : List Effect) (a : Nat) (rest : List Nat) (new : List Effect)
      (o : slurg_output) (b : Nat) (st : slurg_state)
      (ho : ref.output_heap[a]? = some o) (hc : o.configured = true)
      (hpool : pool before a o.width o.height = some b)
      (hst : session_view st = session_view ref)
      (hrest : frames_sent pool ref
        (before ++ painted_frame st a o.width o.height b) rest new) :
      frames_sent pool ref before (a :: rest)
        (painted_frame st a o.width o.height b ++ new)

/-- Whether an effect is a call of the renderer for output `a`. -/
def renders (a : Nat) : Effect → Bool
  | Effect.render _ output _ => output = a
  | _ => false

/-- Whether an effect attaches a buffer to the surface of output `a`. -/
def attaches (a : Nat) : Effect → Bool
  | Effect.wl_surface_attach output _ => output = a
  | _ => false

/-- Whether an effect paints or presents: a call of the renderer, or an attach, damage or
commit of a surface. -/
def paints : Effect → Bool
  | Effect.render _ _ _ => true
  | Effect.wl_surface_attach _ _ => true
  | Effect.wl_surface_damage _ _ _ _ _ => true
  | Effect.wl_surface_commit _ => true
  | _ => false

/-- A render call paints an output that the session it is handed shows as configured. -/
def render_configured : Effect → Prop
  | Effect.render st output _ => ∃ o, st.output_heap[output]? = some o ∧ o.configured = true
  | _ => True

/-- The effects of the startup handshake: registry binds, seat and pointer listener setup,
and diagnostics on standard error.  In particular not a surface creation, not a buffer
request, not a render call, not a surface request. -/
def startup_effect : Effect → Bool
  | Effect.wl_registry_bind _ _ _ => true
  | Effect.wl_seat_add_listener _ => true
  | Effect.wl_seat_get_pointer _ => true
  | Effect.wl_pointer_add_listener _ => true
  | Effect.fprintf_stderr _ => true
  | _ => false

/-- The requests `main` issues for one output in its surface creation loop. -/
def surface_setup (output : Nat) : List Effect :=
  [Effect.wl_compositor_create_surface output,
   Effect.zwlr_layer_shell_v1_get_layer_surface output,
   Effect.zwlr_layer_surface_v1_add_listener output,
   Effect.zwlr_layer_surface_v1_set_anchor output 15,
   Effect.zwlr_layer_surface_v1_set_exclusive_zone output (-1),
   Effect.wl_surface_commit output]

/-- A 32-bit `wl_fixed_t` value. -/
def is_wl_fixed (f : Int) : Prop := -2147483648 ≤ f ∧ f ≤ 2147483647

instance (f : Int) : Decidable (is_wl_fixed f) := by
  unfold is_wl_fixed
  infer_instance

/-- The coordinates a motion event carries are 32-bit `wl_fixed_t` values. -/
def wire_valid : Event → Prop
  | Event.pointer_motion _ _ surface_x surface_y => is_wl_fixed surface_x ∧ is_wl_fixed surface_y
  | _ => True

instance (e : Event) : Decidable (wire_valid e) := by
  cases e <;> unfold wire_valid <;> infer_instance

/-- The four coordinates of a pointer lie in the range of `wl_fixed_to_int`, the 24-bit
integer part of a `wl_fixed_t`. -/
def coordinates_in_range (p : slurg_pointer) : Prop :=
  (-8388608 ≤ p.x ∧ p.x ≤ 8388607) ∧ (-8388608 ≤ p.y ∧ p.y ≤ 8388607) ∧
  (-8388608 ≤ p.pressed_x ∧ p.pressed_x ≤ 8388607) ∧
  (-8388608 ≤ p.pressed_y ∧ p.pressed_y ≤ 8388607)

instance (p : slurg_pointer) : Decidable (coordinates_in_range p) := by
  unfold coordinates_in_range
  infer_instance

/-- Whether an event is a button release. -/
def is_release : Event → Bool
  | Event.pointer_button _ _ _ _ button_state =>
    decide (button_state = WL_POINTER_BUTTON_STATE_RELEASED)
  | _ => false

/-- Whether an event is a button event of pointer `a`. -/
def is_button_of (a : Nat) : Event → Bool
  | Event.pointer_button pointer _ _ _ _ => decide (pointer = a)
  | _ => false

/-- Whether an event is a motion event of pointer `a`. -/
def is_motion_of (a : Nat) : Event → Bool
  | Event.pointer_motion pointer _ _ _ => decide (pointer = a)
  | _ => false

/-- Whether a handshake event announces a global of the given interface. -/
def is_global (interface : String) : RegistryEvent → Bool
  | RegistryEvent.global _ i _ => decide (i = interface)
  | RegistryEvent.seat_capabilities _ _ _ _ => false

/-- Whether the registry announces a global of the given interface during the handshake. -/
def advertised (handshake : List RegistryEvent) (interface : String) : Bool :=
  handshake.any (is_global interface)

/-- The world after the registry handshake (main.c, lines 219-222). -/
def world_after_handshake (handshake : List RegistryEvent) : World :=
  handshake.foldl dispatch_registry { state := initial_state, trace := [] }

/-- What holds of the world throughout the handshake: the loop has not run, no result has
been stored, the output list holds the addresses of all allocated outputs, latest first,
only startup effects have happened, nothing undefined has happened and no output has been
freed. -/
def handshake_inv (w : World) : Prop :=
  w.state.running = false ∧ w.state.result = initial_state.result ∧
  w.state.outputs = (List.range w.state.output_heap.length).reverse ∧
  (∀ e ∈ w.trace, startup_effect e = true) ∧
  w.state.undefined_behaviour = false ∧ ∀ o ∈ w.state.output_heap, o.freed = false

/-- The outputs of a session in which every step so far is defined and stays so as long
as no output is closed or added: nothing undefined has happened, no output is listed
twice, and every allocated output is unfreed and has its surface and layer surface. -/
def outputs_sound (s : slurg_state) : Prop :=
  s.undefined_behaviour = false ∧ s.outputs.Nodup ∧
  ∀ o ∈ s.output_heap, o.freed = false ∧ o.surface.isSome = true ∧
    o.layer_surface.isSome = true

/-- Whether an event leaves the set of outputs alone: it neither closes the layer surface
of an output nor announces a new `wl_output`. -/
def keeps_outputs : Event → Bool
  | Event.layer_surface_closed _ => false
  | Event.global _ interface _ => decide (¬ interface = wl_output_interface_name)
  | _ => true

/-- Pointer `a` exists and is at the integer position `(x, y)`. -/
def pointer_at (w : World) (a : Nat) (x y : Int) : Prop :=
  (w.state.pointer_heap[a]?).map (fun p => (p.x, p.y)) = some (x, y)

instance (w : World) (a : Nat) (x y : Int) : Decidable (pointer_at w a x y) := by
  unfold pointer_at
  infer_instance

/-- The environment `env` with other events held ready for the event loop. -/
def with_batches (env : Env) (batches : List (Option (List Event))) : Env :=
  { connect_ok := env.connect_ok, handshake := env.handshake, batches := batches }

/-! ## Concrete sessions -/

/-- A pool that always has buffer `0` free. -/
def free_pool : BufferPool := fun _ _ _ _ => some 0

/-- A pool with the two buffers per output of `output->buffers`, none of which the display
server has released yet: a buffer is busy once it has been attached. -/
def double_buffer_pool : BufferPool := fun trace output _ _ =>
  if (trace.filter (attaches output)).length < 2 then
    some (trace.filter (attaches output)).length
  else none

/-- A registry that advertises the three required globals, one seat with a pointer and one
output. -/
def one_output_handshake : List RegistryEvent :=
  [RegistryEvent.global 1 "wl_compositor" 4, RegistryEvent.global 2 "wl_shm" 1,
   RegistryEvent.global 3 "zwlr_layer_shell_v1" 1, RegistryEvent.global 4 "wl_seat" 5,
   RegistryEvent.global 5 "wl_output" 3, RegistryEvent.seat_capabilities 4 3 40 true]

/-- The same registry with a second output. -/
def two_output_handshake : List RegistryEvent :=
  one_output_handshake ++ [RegistryEvent.global 6 "wl_output" 3]

/-- A registry without the layer shell: compositor, shm, a seat and one output. -/
def no_layer_shell_handshake : List RegistryEvent :=
  [RegistryEvent.global 1 "wl_compositor" 4, RegistryEvent.global 2 "wl_shm" 1,
   RegistryEvent.global 4 "wl_seat" 5, RegistryEvent.global 5 "wl_output" 3,
   RegistryEvent.seat_capabilities 4 3 40 true]

/-- An environment whose registry lacks the layer shell. -/
def no_layer_shell_env : Env :=
  { connect_ok := true, handshake := no_layer_shell_handshake, batches := [] }

/-- The world `main` has built when it enters its event loop after `handshake`; the initial
world when the startup checks fail. -/
def world_after_setup (handshake : List RegistryEvent) : World :=
  match main_setup { connect_ok := true, handshake := handshake, batches := [] } with
  | Except.ok w => w
  | Except.error _ => { state := initial_state, trace := [] }

/-- The pointer of a fresh seat: `calloc` zeroes every member. -/
def resting_pointer : slurg_pointer :=
  { wl_pointer := 40, x := 0, y := 0, pressed_x := 0, pressed_y := 0,
    button_state := 0, freed := false }

/-- A pointer pressed at (100,100) and dragged to (400,300). -/
def dragged_pointer : slurg_pointer :=
  { wl_pointer := 40, x := 400, y := 300, pressed_x := 100, pressed_y := 100,
    button_state := 1, freed := false }

/-- A pointer state at the edge of the 32-bit range: pressed at 0, now at `INT_MIN`. -/
def extreme_pointer : slurg_pointer :=
  { wl_pointer := 40, x := INT_MIN, y := 0, pressed_x := 0, pressed_y := 0,
    button_state := 1, freed := false }

/-- The record of an output right after `main` has created its surfaces. -/
def fresh_output : slurg_output :=
  { wl_output := 5, surface := some 0, layer_surface := some 0, configured := false,
    width := 0, height := 0, current_buffer := none, freed := false }

/-- One output, configured at 1920 x 1080, and one pointer at rest. -/
def one_output_world (pool : BufferPool) : World :=
  dispatch_batch pool (world_after_setup one_output_handshake)
    [Event.layer_surface_configure 0 1 1920 1080]

/-- Two outputs, configured at 1920 x 1080 and 1280 x 1024, and one pointer at rest. -/
def two_output_world (pool : BufferPool) : World :=
  dispatch_batch pool (world_after_setup two_output_handshake)
    [Event.layer_surface_configure 0 1 1920 1080, Event.layer_surface_configure 1 2 1280 1024]

/-- The two-output session after the layer surface of output `1` has been closed. -/
def closed_world : World :=
  layer_surface_handle_closed (two_output_world free_pool) 1

/-- One output configured at 1920 x 1080, then a press at (100,100): both buffers of the
output are with the display server. -/
def pressed_world : World :=
  dispatch_batch double_buffer_pool (world_after_setup one_output_handshake)
    [Event.layer_surface_configure 0 1 1920 1080,
     Event.pointer_motion 0 10 (wl_fixed_from_int 100) (wl_fixed_from_int 100),
     Event.pointer_button 0 1 11 272 WL_POINTER_BUTTON_STATE_PRESSED]

/-- Move to (100,100), press, move to (400,300): the drag of the first end-to-end
scenario, up to the release. -/
def drag_events : List Event :=
  [Event.pointer_motion 0 10 (wl_fixed_from_int 100) (wl_fixed_from_int 100),
   Event.pointer_button 0 1 11 272 WL_POINTER_BUTTON_STATE_PRESSED,
   Event.pointer_motion 0 12 (wl_fixed_from_int 400) (wl_fixed_from_int 300)]

/-- Move to (5,5), press, move to (-3,-3) - left of and above the surface the press
landed on - and release. -/
def drag_out_events : List Event :=
  [Event.pointer_motion 0 10 (wl_fixed_from_int 5) (wl_fixed_from_int 5),
   Event.pointer_button 0 1 11 272 WL_POINTER_BUTTON_STATE_PRESSED,
   Event.pointer_motion 0 12 (wl_fixed_from_int (-3)) (wl_fixed_from_int (-3)),
   Event.pointer_button 0 2 13 272 WL_POINTER_BUTTON_STATE_RELEASED]

/-- The first end-to-end scenario: one output sized 1920 x 1080; the pointer is pressed at
(100,100), dragged to (400,300) and released, the press and the release arriving in
different batches. -/
def scenario_one_env : Env :=
  { connect_ok := true, handshake := one_output_handshake,
    batches := [some [Event.layer_surface_configure 0 1 1920 1080],
                some [Event.pointer_motion 0 10 (wl_fixed_from_int 100) (wl_fixed_from_int 100),
                      Event.pointer_button 0 1 11 272 WL_POINTER_BUTTON_STATE_PRESSED],
                some [Event.pointer_motion 0 12 (wl_fixed_from_int 400) (wl_fixed_from_int 300),
                      Event.pointer_button 0 2 13 272 WL_POINTER_BUTTON_STATE_RELEASED]] }

/-- The first end-to-end scenario with a click queued behind the release: in the batch of
the release, a press and a release at the point of the release follow. -/
def queued_click_env : Env :=
  { connect_ok := true, handshake := one_output_handshake,
    batches := [some [Event.layer_surface_configure 0 1 1920 1080],
                some (drag_events ++
                  [Event.pointer_button 0 2 13 272 WL_POINTER_BUTTON_STATE_RELEASED,
                   Event.pointer_button 0 3 14 272 WL_POINTER_BUTTON_STATE_PRESSED,
                   Event.pointer_button 0 4 15 272 WL_POINTER_BUTTON_STATE_RELEASED])] }

/-- The second end-to-end scenario: the pointer is pressed and released at (50,50) with no
motion in between. -/
def scenario_two_env : Env :=
  { connect_ok := true, handshake := one_output_handshake,
    batches := [some [Event.layer_surface_configure 0 1 1920 1080],
                some [Event.pointer_motion 0 10 (wl_fixed_from_int 50) (wl_fixed_from_int 50),
                      Event.pointer_button 0 1 11 272 WL_POINTER_BUTTON_STATE_PRESSED,
                      Event.pointer_button 0 2 12 272 WL_POINTER_BUTTON_STATE_RELEASED]] }

/-- The second end-to-end scenario with a drag queued behind the click: in the batch of the
release, a press, a motion to (60,70) and a release follow. -/
def queued_drag_env : Env :=
  { connect_ok := true, handshake := one_output_handshake,
    batches := [some [Event.layer_surface_configure 0 1 1920 1080],
                some [Event.pointer_motion 0 10 (wl_fixed_from_int 50) (wl_fixed_from_int 50),
                      Event.pointer_button 0 1 11 272 WL_POINTER_BUTTON_STATE_PRESSED,
                      Event.pointer_button 0 2 12 272 WL_POINTER_BUTTON_STATE_RELEASED,
                      Event.pointer_button 0 3 13 272 WL_POINTER_BUTTON_STATE_PRESSED,
                      Event.pointer_motion 0 14 (wl_fixed_from_int 60) (wl_fixed_from_int 70),
                      Event.pointer_button 0 4 15 272 WL_POINTER_BUTTON_STATE_RELEASED]] }

/-! ## Theorems -/

/-! ## Arithmetic facts -/

theorem wrap_int_of_int (n : Int) (h1 : -2147483648 ≤ n) (h2 : n ≤ 2147483647) :
    wrap_int n = n := by
  unfold wrap_int
  omega

theorem abs_int_sub (a b : Int) (h : |a - b| ≤ INT_MAX) :
    Slurg.abs (int_sub a b) = |a - b| := by
  have h' := abs_le.mp h
  unfold INT_MAX at h'
  have hs : int_sub a b = a - b := wrap_int_of_int _ (by omega) (by omega)
  rw [hs]
  unfold Slurg.abs
  by_cases hn : a - b < 0
  · rw [if_pos hn, abs_of_neg hn]
    exact wrap_int_of_int _ (by omega) (by omega)
  · rw [if_neg hn, abs_of_nonneg (by omega)]
    exact wrap_int_of_int _ (by omega) (by omega)

theorem min_eq_min (a b : Int) : Slurg.min a b = Min.min a b := by
  unfold Slurg.min
  by_cases h : a < b
  · rw [if_pos h, min_eq_left (le_of_lt h)]
  · rw [if_neg h, min_eq_right (by omega)]

theorem wl_fixed_to_int_range (f : Int) (h1 : -2147483648 ≤ f) (h2 : f ≤ 2147483647) :
    -8388608 ≤ wl_fixed_to_int f ∧ wl_fixed_to_int f ≤ 8388607 := by
  unfold wl_fixed_to_int
  by_cases hf : 0 ≤ f
  · rw [Int.tdiv_eq_ediv hf (by decide)]
    omega
  · have hneg : f = -(-f) := by omega
    rw [hneg, Int.neg_tdiv, Int.tdiv_eq_ediv (by omega) (by decide)]
    omega

theorem set_map_forget (l : List slurg_output) (a : Nat) (o : slurg_output)
    (b : Option Nat) (h : l[a]? = some o) :
    (l.set a { o with current_buffer := b }).map forget_buffer = l.map forget_buffer := by
  apply List.ext_getElem?
  intro i
  simp only [List.getElem?_map, List.getElem?_set]
  by_cases hi : a = i
  · subst hi
    have hlt : a < l.length := by
      rcases Nat.lt_or_ge a l.length with h1 | h1
      · exact h1
      · rw [List.getElem?_eq_none h1] at h
        cases h
    simp [hlt, h, forget_buffer]
  · simp [hi]

theorem send_frame_view (pool : BufferPool) (w : World) (a : Nat) :
    session_view (send_frame pool w a).state = session_view w.state := by
  unfold send_frame
  split
  · rfl
  · rename_i o h
    split
    · rfl
    · simp only []
      split <;>
        simp [emit, store_output, undefined_if, session_view, set_map_forget _ _ _ _ h]

/-- What `send_frame` adds to the trace for a configured output. -/
theorem send_frame_trace (pool : BufferPool) (w : World) (a : Nat) (o : slurg_output)
    (h : w.state.output_heap[a]? = some o) (hc : o.configured = true) :
    (send_frame pool w a).trace = w.trace ++ Effect.get_next_buffer a o.width o.height ::
      (match pool w.trace a o.width o.height with
       | none => []
       | some b =>
         [Effect.render (send_frame pool w a).state a b,
          Effect.wl_surface_attach a b, Effect.wl_surface_damage a 0 0 o.width o.height,
          Effect.wl_surface_commit a]) := by
  unfold send_frame
  simp only [h, hc]
  cases hp : pool w.trace a o.width o.height <;> simp [emit, store_output, undefined_if]

/-- What `send_frame` leaves of the trace for an output that is not configured or not
allocated. -/
theorem send_frame_trace_skip (pool : BufferPool) (w : World) (a : Nat)
    (h : ∀ o, w.state.output_heap[a]? = some o → o.configured = false) :
    (send_frame pool w a).trace = w.trace := by
  unfold send_frame
  split
  · rfl
  · rename_i o ho
    simp [h o ho, undefined_if]

theorem getElem?_lt {α : Type} (l : List α) (a : Nat) (x : α) (h : l[a]? = some x) :
    a < l.length := by
  rcases Nat.lt_or_ge a l.length with h1 | h1
  · exact h1
  · rw [List.getElem?_eq_none h1] at h
    cases h

theorem view_get (s t : slurg_state) (h : session_view s = session_view t) (a : Nat)
    (o : slurg_output) (ho : t.output_heap[a]? = some o) :
    ∃ o', s.output_heap[a]? = some o' ∧ o'.configured = o.configured ∧
      o'.width = o.width ∧ o'.height = o.height ∧ o'.freed = o.freed ∧
      o'.surface = o.surface ∧ o'.layer_surface = o.layer_surface := by
  have hm : s.output_heap.map forget_buffer = t.output_heap.map forget_buffer :=
    congrArg slurg_state.output_heap h
  have hg := congrArg (fun l => l[a]?) hm
  simp only [List.getElem?_map, ho, Option.map_some'] at hg
  cases hs : s.output_heap[a]? with
  | none => simp [hs] at hg
  | some o' =>
    simp only [hs, Option.map_some', Option.some.injEq] at hg
    refine ⟨o', rfl, ?_, ?_, ?_, ?_, ?_, ?_⟩
    · simpa [forget_buffer] using congrArg slurg_output.configured hg
    · simpa [forget_buffer] using congrArg slurg_output.width hg
    · simpa [forget_buffer] using congrArg slurg_output.height hg
    · simpa [forget_buffer] using congrArg slurg_output.freed hg
    · simpa [forget_buffer] using congrArg slurg_output.surface hg
    · simpa [forget_buffer] using congrArg slurg_output.layer_surface hg

theorem send_frame_foldl_view (pool : BufferPool) (l : List Nat) (w : World) :
    session_view (l.foldl (send_frame pool) w).state = session_view w.state := by
  induction l generalizing w with
  | nil => rfl
  | cons a l ih => exact (ih (send_frame pool w a)).trans (send_frame_view pool w a)

/-- A run of `send_frame` over a list of outputs adds to the trace exactly the frames of
`frames_sent`, whatever session `ref` the world agrees with. -/
theorem send_frame_foldl_frames (pool : BufferPool) (ref : slurg_state) (l : List Nat)
    (w : World) (hv : session_view ref = session_view w.state) :
    ∃ new, (l.foldl (send_frame pool) w).trace = w.trace ++ new ∧
      frames_sent pool ref w.trace l new := by
  induction l generalizing w with
  | nil => exact ⟨[], by simp, frames_sent.done _⟩
  | cons a l ih =>
    have hv1 : session_view ref = session_view (send_frame pool w a).state :=
      hv.trans (send_frame_view pool w a).symm
    obtain ⟨new, htr, hfr⟩ := ih (send_frame pool w a) hv1
    by_cases hconf : ∃ o, ref.output_heap[a]? = some o ∧ o.configured = true
    · obtain ⟨o, ho, hc⟩ := hconf
      obtain ⟨o', ho', hc', hw', hh', _⟩ := view_get w.state ref hv.symm a o ho
      have h0 := send_frame_trace pool w a o' ho' (hc'.trans hc)
      rw [hw', hh'] at h0
      cases hpool : pool w.trace a o.width o.height with
      | none =>
        rw [hpool] at h0
        rw [h0] at htr hfr
        refine ⟨Effect.get_next_buffer a o.width o.height :: new, ?_, ?_⟩
        · rw [List.foldl_cons, htr]
          simp
        · exact frames_sent.denied _ a l new o ho hc hpool hfr
      | some b =>
        rw [hpool] at h0
        have h0' : (send_frame pool w a).trace =
            w.trace ++ painted_frame (send_frame pool w a).state a o.width o.height b := h0
        rw [h0'] at htr hfr
        refine ⟨painted_frame (send_frame pool w a).state a o.width o.height b ++ new,
          ?_, ?_⟩
        · rw [List.foldl_cons, htr, List.append_assoc]
        · exact frames_sent.painted _ a l new o b _ ho hc hpool hv1.symm hfr
    · have hskip : ∀ o, ref.output_heap[a]? = some o → o.configured = false := by
        intro o ho
        cases hc : o.configured
        · rfl
        · exact absurd ⟨o, ho, hc⟩ hconf
      have hskip' : ∀ o, w.state.output_heap[a]? = some o → o.configured = false := by
        intro o' ho'
        obtain ⟨o, ho, hc, _⟩ := view_get ref w.state hv a o' ho'
        rw [← hc]
        exact hskip o ho
      have h0 := send_frame_trace_skip pool w a hskip'
      rw [h0] at htr hfr
      exact ⟨new, by rw [List.foldl_cons, htr], frames_sent.skipped _ a l new hskip hfr⟩

/-- C5: a motion event delivered to a pointer whose button state is not pressed (released,
or never pressed) adds nothing to the trace - no buffer request, no render call, no surface
attach, damage or commit on any output - and changes nothing in the session except that
pointer's current `x` and `y`. -/
theorem motion_released_no_render (pool : BufferPool) (w : World) (a : Nat)
    (p : slurg_pointer) (surface_x surface_y : Int)
    (hp : w.state.pointer_heap[a]? = some p)
    (hb : p.button_state ≠ WL_POINTER_BUTTON_STATE_PRESSED) :
    pointer_handle_motion pool w a surface_x surface_y =
      { state := { w.state with
          pointer_heap := w.state.pointer_heap.set a
            { p with x := wl_fixed_to_int surface_x, y := wl_fixed_to_int surface_y } },
        trace := w.trace } := by
  simp [pointer_handle_motion, hp, hb, store_pointer]

/-- C5 on the pointer at rest of the one-output session. -/
theorem motion_released_no_render_witness :
    pointer_handle_motion free_pool (one_output_world free_pool) 0 25600 12800 =
      { state := { (one_output_world free_pool).state with
          pointer_heap := (one_output_world free_pool).state.pointer_heap.set 0
            { resting_pointer with x := wl_fixed_to_int 25600, y := wl_fixed_to_int 12800 } },
        trace := (one_output_world free_pool).trace } :=
  motion_released_no_render free_pool (one_output_world free_pool) 0 resting_pointer
    25600 12800 (by decide) (by decide)

/-! ## What the handlers leave alone -/

theorem send_frame_each_view (pool : BufferPool) (w : World) :
    session_view (send_frame_each pool w).state = session_view w.state :=
  send_frame_foldl_view pool w.state.outputs w

theorem view_pointer_heap (s t : slurg_state) (h : session_view s = session_view t) :
    s.pointer_heap = t.pointer_heap :=
  show (session_view s).pointer_heap = (session_view t).pointer_heap from congrArg slurg_state.pointer_heap h

theorem view_running (s t : slurg_state) (h : session_view s = session_view t) :
    s.running = t.running :=
  show (session_view s).running = (session_view t).running from congrArg slurg_state.running h

theorem view_result (s t : slurg_state) (h : session_view s = session_view t) :
    s.result = t.result :=
  show (session_view s).result = (session_view t).result from congrArg slurg_state.result h

/-- The pointer heap, the running flag and the result after any handler other than the two
pointer handlers are the ones before, up to one `calloc`ed pointer appended. -/
theorem handle_global_pointer_heap (w : World) (name : Nat) (interface : String) :
    (handle_global w name interface).state.pointer_heap = w.state.pointer_heap ∧
    (handle_global w name interface).state.running = w.state.running ∧
    (handle_global w name interface).state.result = w.state.result := by
  unfold handle_global
  split_ifs <;> exact ⟨rfl, rfl, rfl⟩

theorem seat_handle_capabilities_pointer_heap (w : World) (seat capabilities wl_pointer : Nat)
    (calloc_ok : Bool) :
    ((seat_handle_capabilities w seat capabilities wl_pointer calloc_ok).state.pointer_heap
        = w.state.pointer_heap ∨
      (seat_handle_capabilities w seat capabilities wl_pointer calloc_ok).state.pointer_heap
        = w.state.pointer_heap ++ [{ resting_pointer with wl_pointer := wl_pointer }]) ∧
    (seat_handle_capabilities w seat capabilities wl_pointer calloc_ok).state.running
      = w.state.running ∧
    (seat_handle_capabilities w seat capabilities wl_pointer calloc_ok).state.result
      = w.state.result := by
  unfold seat_handle_capabilities create_pointer
  split_ifs
  · exact ⟨Or.inl rfl, rfl, rfl⟩
  · exact ⟨Or.inr rfl, rfl, rfl⟩
  · exact ⟨Or.inl rfl, rfl, rfl⟩

theorem configure_pointer_heap (pool : BufferPool) (w : World) (a serial width height : Nat) :
    (layer_surface_handle_configure pool w a serial width height).state.pointer_heap
      = w.state.pointer_heap ∧
    (layer_surface_handle_configure pool w a serial width height).state.running
      = w.state.running ∧
    (layer_surface_handle_configure pool w a serial width height).state.result
      = w.state.result := by
  unfold layer_surface_handle_configure
  split
  · exact ⟨rfl, rfl, rfl⟩
  · rename_i o _
    have h := send_frame_view pool (emit (store_output w a
      { o with configured := true, width := int32_of_uint32 width,
               height := int32_of_uint32 height })
      [Effect.zwlr_layer_surface_v1_ack_configure a serial]) a
    have h1 := view_pointer_heap _ _ h
    have h2 := view_running _ _ h
    have h3 := view_result _ _ h
    exact ⟨h1, h2, h3⟩

theorem closed_pointer_heap (w : World) (a : Nat) :
    (layer_surface_handle_closed w a).state.pointer_heap = w.state.pointer_heap ∧
    (layer_surface_handle_closed w a).state.running = w.state.running ∧
    (layer_surface_handle_closed w a).state.result = w.state.result := by
  unfold layer_surface_handle_closed destroy_output
  split <;> exact ⟨rfl, rfl, rfl⟩

/-- The pointer heap after a motion event. -/
theorem motion_pointer_heap (pool : BufferPool) (w : World) (a : Nat) (fx fy : Int)
    (p : slurg_pointer) (hp : w.state.pointer_heap[a]? = some p) :
    (pointer_handle_motion pool w a fx fy).state.pointer_heap =
      w.state.pointer_heap.set a { p with x := wl_fixed_to_int fx, y := wl_fixed_to_int fy } ∧
    (pointer_handle_motion pool w a fx fy).state.running = w.state.running ∧
    (pointer_handle_motion pool w a fx fy).state.result = w.state.result := by
  unfold pointer_handle_motion
  simp only [hp]
  split_ifs
  · have h := send_frame_each_view pool (store_pointer w a
      { p with x := wl_fixed_to_int fx, y := wl_fixed_to_int fy })
    have h1 := view_pointer_heap _ _ h
    have h2 := view_running _ _ h
    have h3 := view_result _ _ h
    exact ⟨h1, h2, h3⟩
  · exact ⟨rfl, rfl, rfl⟩

/-- The pointer heap after a button press. -/
theorem press_pointer_heap (pool : BufferPool) (w : World) (a : Nat) (p : slurg_pointer)
    (hp : w.state.pointer_heap[a]? = some p) :
    (pointer_handle_button pool w a WL_POINTER_BUTTON_STATE_PRESSED).state.pointer_heap =
      w.state.pointer_heap.set a { p with button_state := WL_POINTER_BUTTON_STATE_PRESSED,
                                          pressed_x := p.x, pressed_y := p.y } ∧
    (pointer_handle_button pool w a WL_POINTER_BUTTON_STATE_PRESSED).state.running
      = w.state.running ∧
    (pointer_handle_button pool w a WL_POINTER_BUTTON_STATE_PRESSED).state.result
      = w.state.result := by
  unfold pointer_handle_button
  simp only [hp, if_true]
  have h := send_frame_each_view pool (store_pointer (store_pointer w a
    { p with button_state := WL_POINTER_BUTTON_STATE_PRESSED }) a
    { p with button_state := WL_POINTER_BUTTON_STATE_PRESSED, pressed_x := p.x,
             pressed_y := p.y })
  have h1 := view_pointer_heap _ _ h
  have h2 := view_running _ _ h
  have h3 := view_result _ _ h
  refine ⟨?_, h2, h3⟩
  rw [h1]
  simp [store_pointer]

/-- The session after a button release. -/
theorem release_state (pool : BufferPool) (w : World) (a : Nat) (p : slurg_pointer)
    (hp : w.state.pointer_heap[a]? = some p) :
    pointer_handle_button pool w a WL_POINTER_BUTTON_STATE_RELEASED =
      { state := { w.state with
          pointer_heap := w.state.pointer_heap.set a
            { p with button_state := WL_POINTER_BUTTON_STATE_RELEASED },
          result := pointer_get_box p,
          running := false },
        trace := w.trace } := by
  simp [pointer_handle_button, hp, store_pointer, WL_POINTER_BUTTON_STATE_RELEASED,
    WL_POINTER_BUTTON_STATE_PRESSED, pointer_get_box]

/-- A button event whose state is neither pressed nor released only records the state. -/
theorem other_button_state (pool : BufferPool) (w : World) (a b : Nat) (p : slurg_pointer)
    (hp : w.state.pointer_heap[a]? = some p) (h1 : b ≠ WL_POINTER_BUTTON_STATE_PRESSED)
    (h0 : b ≠ WL_POINTER_BUTTON_STATE_RELEASED) :
    pointer_handle_button pool w a b =
      { w with state := { w.state with
          pointer_heap := w.state.pointer_heap.set a { p with button_state := b } } } := by
  simp [pointer_handle_button, hp, store_pointer, h1, h0]

/-! ## Coordinates stay within the range of `wl_fixed_to_int` -/

theorem mem_of_getElem? {α : Type} (l : List α) (a : Nat) (x : α) (h : l[a]? = some x) :
    x ∈ l := by
  have hlt := getElem?_lt l a x h
  rw [List.getElem?_eq_getElem hlt] at h
  cases h
  exact List.getElem_mem hlt

theorem forall_mem_set {α : Type} (P : α → Prop) (l : List α) (a : Nat) (x : α)
    (hl : ∀ y ∈ l, P y) (hx : P x) : ∀ y ∈ l.set a x, P y := by
  intro y hy
  rcases List.mem_or_eq_of_mem_set hy with h | h
  · exact hl y h
  · rw [h]
    exact hx

theorem dispatch_in_range (pool : BufferPool) (w : World) (e : Event)
    (hw : ∀ p ∈ w.state.pointer_heap, coordinates_in_range p) (he : wire_valid e) :
    ∀ p ∈ (dispatch pool w e).state.pointer_heap, coordinates_in_range p := by
  cases e with
  | global name interface version =>
    simp only [dispatch, (handle_global_pointer_heap w name interface).1]
    exact hw
  | seat_capabilities seat capabilities wl_pointer calloc_ok =>
    simp only [dispatch]
    rcases (seat_handle_capabilities_pointer_heap w seat capabilities wl_pointer calloc_ok).1
      with h | h
    · rw [h]
      exact hw
    · rw [h]
      intro p hp
      rcases List.mem_append.mp hp with h1 | h1
      · exact hw p h1
      · rw [List.mem_singleton.mp h1]
        simp [coordinates_in_range, resting_pointer]
  | pointer_motion a time fx fy =>
    simp only [dispatch]
    cases hp : w.state.pointer_heap[a]? with
    | none =>
      simp only [pointer_handle_motion, hp]
      exact hw
    | some p =>
      rw [(motion_pointer_heap pool w a fx fy p hp).1]
      have hin := hw p (mem_of_getElem? _ _ _ hp)
      refine forall_mem_set _ _ _ _ hw ?_
      exact ⟨wl_fixed_to_int_range fx he.1.1 he.1.2, wl_fixed_to_int_range fy he.2.1 he.2.2,
        hin.2.2.1, hin.2.2.2⟩
  | pointer_button a serial time button b =>
    simp only [dispatch]
    cases hp : w.state.pointer_heap[a]? with
    | none =>
      simp only [pointer_handle_button, hp]
      exact hw
    | some p =>
      have hin := hw p (mem_of_getElem? _ _ _ hp)
      by_cases h1 : b = WL_POINTER_BUTTON_STATE_PRESSED
      · subst h1
        rw [(press_pointer_heap pool w a p hp).1]
        exact forall_mem_set _ _ _ _ hw ⟨hin.1, hin.2.1, hin.1, hin.2.1⟩
      · by_cases h0 : b = WL_POINTER_BUTTON_STATE_RELEASED
        · subst h0
          rw [release_state pool w a p hp]
          exact forall_mem_set _ _ _ _ hw hin
        · rw [other_button_state pool w a b p hp h1 h0]
          exact forall_mem_set _ _ _ _ hw hin
  | layer_surface_configure a serial width height =>
    simp only [dispatch, (configure_pointer_heap pool w a serial width height).1]
    exact hw
  | layer_surface_closed a =>
    simp only [dispatch, (closed_pointer_heap w a).1]
    exact hw

theorem dispatch_batch_in_range (pool : BufferPool) (events : List Event) (w : World)
    (hw : ∀ p ∈ w.state.pointer_heap, coordinates_in_range p)
    (he : ∀ e ∈ events, wire_valid e) :
    ∀ p ∈ (dispatch_batch pool w events).state.pointer_heap, coordinates_in_range p := by
  induction events generalizing w with
  | nil => exact hw
  | cons e es ih =>
    exact ih (dispatch pool w e)
      (dispatch_in_range pool w e hw (he e (List.mem_cons_self e es)))
      (fun e' h' => he e' (List.mem_cons_of_mem e h'))

theorem dispatch_batch_append (pool : BufferPool) (w : World) (xs ys : List Event) :
    dispatch_batch pool w (xs ++ ys) = dispatch_batch pool (dispatch_batch pool w xs) ys := by
  simp [dispatch_batch, List.foldl_append]

theorem in_range_representable (p : slurg_pointer) (h : coordinates_in_range p) :
    |p.x - p.pressed_x| ≤ INT_MAX ∧ |p.y - p.pressed_y| ≤ INT_MAX := by
  obtain ⟨⟨h1, h2⟩, ⟨h3, h4⟩, ⟨h5, h6⟩, h7, h8⟩ := h
  unfold INT_MAX
  constructor <;> rw [abs_le] <;> constructor <;> omega

theorem int32_of_uint32_small (n : Nat) (h : n < 2147483648) : int32_of_uint32 n = (n : Int) := by
  unfold int32_of_uint32
  exact wrap_int_of_int _ (by omega) (by omega)

/-- One configure event: the output's record afterwards and the effects added. -/
theorem configure_once (pool : BufferPool) (v : World) (a : Nat) (o : slurg_output)
    (serial width height : Nat) (ho : v.state.output_heap[a]? = some o) :
    (∃ o', (layer_surface_handle_configure pool v a serial width height
        ).state.output_heap[a]? = some o' ∧
      o'.configured = true ∧ o'.width = int32_of_uint32 width ∧
      o'.height = int32_of_uint32 height) ∧
    (layer_surface_handle_configure pool v a serial width height).trace =
      v.trace ++
        [Effect.zwlr_layer_surface_v1_ack_configure a serial,
         Effect.get_next_buffer a (int32_of_uint32 width) (int32_of_uint32 height)] ++
        (match pool (v.trace ++ [Effect.zwlr_layer_surface_v1_ack_configure a serial])
            a (int32_of_uint32 width) (int32_of_uint32 height) with
         | none => []
         | some b =>
           [Effect.render (layer_surface_handle_configure pool v a serial width height).state
              a b,
            Effect.wl_surface_attach a b,
            Effect.wl_surface_damage a 0 0 (int32_of_uint32 width) (int32_of_uint32 height),
            Effect.wl_surface_commit a]) := by
  have hlt := getElem?_lt _ _ _ ho
  have heq : layer_surface_handle_configure pool v a serial width height =
      send_frame pool (emit (store_output v a
        { o with configured := true, width := int32_of_uint32 width,
                 height := int32_of_uint32 height })
        [Effect.zwlr_layer_surface_v1_ack_configure a serial]) a := by
    simp only [layer_surface_handle_configure, ho]
  have hstored : (emit (store_output v a
        { o with configured := true, width := int32_of_uint32 width,
                 height := int32_of_uint32 height })
        [Effect.zwlr_layer_surface_v1_ack_configure a serial]).state.output_heap[a]? =
      some { o with configured := true, width := int32_of_uint32 width,
                    height := int32_of_uint32 height } := by
    simp [emit, store_output, hlt]
  constructor
  · obtain ⟨o', ho', hc', hw', hh', _⟩ := view_get _ _ (send_frame_view pool (emit
      (store_output v a
        { o with configured := true, width := int32_of_uint32 width,
                 height := int32_of_uint32 height })
        [Effect.zwlr_layer_surface_v1_ack_configure a serial]) a) a _ hstored
    rw [heq]
    exact ⟨o', ho', hc', hw', hh'⟩
  · have htr := send_frame_trace pool _ a _ hstored rfl
    rw [← heq] at htr
    rw [htr]
    simp [emit, store_output]

/-- C7 as amended: after two configure events `(w1,h1)` then `(w2,h2)` on a registered
output, with `w2` and `h2` below 2^31 (so that they fit the `int32_t` they are stored and
passed as), the output is configured with width `w2` and height `h2`, and the second event
adds to the trace exactly its acknowledgement and one run of `send_frame` on that output:
one buffer request at `w2 x h2` and - when the pool hands out a buffer - one render call for
that output followed by the attach, the damage of `w2 x h2` and the commit of its surface;
when the pool has no buffer nothing is rendered.  No other output is requested or
rendered. -/
theorem configure_twice (pool : BufferPool) (w : World) (a : Nat) (o : slurg_output)
    (serial1 w1 h1 serial2 w2 h2 : Nat) (ho : w.state.output_heap[a]? = some o)
    (hw2 : w2 < 2147483648) (hh2 : h2 < 2147483648) :
    (∃ o2, (layer_surface_handle_configure pool
          (layer_surface_handle_configure pool w a serial1 w1 h1) a serial2 w2 h2
        ).state.output_heap[a]? = some o2 ∧
      o2.configured = true ∧ o2.width = (w2 : Int) ∧ o2.height = (h2 : Int)) ∧
    (layer_surface_handle_configure pool
        (layer_surface_handle_configure pool w a serial1 w1 h1) a serial2 w2 h2).trace =
      (layer_surface_handle_configure pool w a serial1 w1 h1).trace ++
        [Effect.zwlr_layer_surface_v1_ack_configure a serial2,
         Effect.get_next_buffer a w2 h2] ++
        (match pool ((layer_surface_handle_configure pool w a serial1 w1 h1).trace ++
            [Effect.zwlr_layer_surface_v1_ack_configure a serial2]) a w2 h2 with
         | none => []
         | some b =>
           [Effect.render (layer_surface_handle_configure pool
                (layer_surface_handle_configure pool w a serial1 w1 h1) a serial2 w2 h2
              ).state a b,
            Effect.wl_surface_attach a b, Effect.wl_surface_damage a 0 0 w2 h2,
            Effect.wl_surface_commit a]) := by
  obtain ⟨⟨o1, ho1, _⟩, _⟩ := configure_once pool w a o serial1 w1 h1 ho
  obtain ⟨⟨o2, ho2, hc2, hwd, hht⟩, htr⟩ := configure_once pool _ a o1 serial2 w2 h2 ho1
  rw [int32_of_uint32_small w2 hw2] at hwd htr
  rw [int32_of_uint32_small h2 hh2] at hht htr
  exact ⟨⟨o2, ho2, hc2, hwd, hht⟩, htr⟩

/-- C7 on the one output of a fresh session, with a pool that always has a buffer: after
configure events 1920 x 1080 and 1280 x 1024 the output is configured at 1280 x 1024. -/
theorem configure_twice_witness :
    ∃ o2, (layer_surface_handle_configure free_pool
          (layer_surface_handle_configure free_pool (world_after_setup one_output_handshake)
            0 1 1920 1080) 0 2 1280 1024).state.output_heap[0]? = some o2 ∧
      o2.configured = true ∧ o2.width = 1280 ∧ o2.height = 1024 :=
  (configure_twice free_pool (world_after_setup one_output_handshake) 0 fresh_output
    1 1920 1080 2 1280 1024 (by decide) (by decide) (by decide)).1

/-- C7 fails as stated: on an output whose first buffer is with the display server, the
configure events 1920 x 1080 and then 1280 x 1024 leave the pool without a buffer for the
second one, which is acknowledged and asks the pool but renders nothing; and a second
configure event of width 4294967295, even with a buffer at hand, damages the surface with
the width -1 that the `uint32_t` converts to. -/
theorem second_configure_without_buffer :
    (layer_surface_handle_configure double_buffer_pool
        (layer_surface_handle_configure double_buffer_pool
          (one_output_world double_buffer_pool) 0 2 1920 1080) 0 3 1280 1024).trace =
      (layer_surface_handle_configure double_buffer_pool
          (one_output_world double_buffer_pool) 0 2 1920 1080).trace ++
        [Effect.zwlr_layer_surface_v1_ack_configure 0 3,
         Effect.get_next_buffer 0 1280 1024] ∧
    ((layer_surface_handle_configure free_pool
        (layer_surface_handle_configure free_pool
          (world_after_setup one_output_handshake) 0 1 1920 1080) 0 2 4294967295 1080
      ).trace.drop (layer_surface_handle_configure free_pool
          (world_after_setup one_output_handshake) 0 1 1920 1080).trace.length).map
        (fun e => (decide (e = Effect.get_next_buffer 0 (-1) 1080),
          decide (e = Effect.wl_surface_damage 0 0 0 (-1) 1080))) =
      [(false, false), (true, false), (false, false), (false, false), (false, true),
       (false, false)] := by
  constructor
  · decide
  · decide

/-! ## Only configured outputs are rendered -/

theorem emit_render_configured (w : World) (es : List Effect)
    (hw : ∀ e ∈ w.trace, render_configured e) (hes : ∀ e ∈ es, render_configured e) :
    ∀ e ∈ (emit w es).trace, render_configured e := by
  intro e he
  rcases List.mem_append.mp he with h | h
  · exact hw e h
  · exact hes e h

theorem send_frame_render_configured (pool : BufferPool) (w : World) (a : Nat)
    (hw : ∀ e ∈ w.trace, render_configured e) :
    ∀ e ∈ (send_frame pool w a).trace, render_configured e := by
  by_cases hconf : ∃ o, w.state.output_heap[a]? = some o ∧ o.configured = true
  · obtain ⟨o, ho, hc⟩ := hconf
    rw [send_frame_trace pool w a o ho hc]
    obtain ⟨o', ho', hc', _⟩ := view_get _ _ (send_frame_view pool w a) a o ho
    intro e he
    rcases List.mem_append.mp he with h | h
    · exact hw e h
    · cases hpool : pool w.trace a o.width o.height with
      | none =>
        rw [hpool] at h
        simp only [List.mem_singleton] at h
        rw [h]
        trivial
      | some b =>
        rw [hpool] at h
        simp only [List.mem_cons, List.mem_singleton, List.not_mem_nil, or_false] at h
        rcases h with h | h | h | h | h <;> rw [h]
        · trivial
        · exact ⟨o', ho', hc'.trans hc⟩
        · trivial
        · trivial
        · trivial
  · rw [send_frame_trace_skip pool w a]
    · exact hw
    · intro o ho
      cases hc : o.configured
      · rfl
      · exact absurd ⟨o, ho, hc⟩ hconf

theorem send_frame_foldl_render_configured (pool : BufferPool) (l : List Nat) (w : World)
    (hw : ∀ e ∈ w.trace, render_configured e) :
    ∀ e ∈ (l.foldl (send_frame pool) w).trace, render_configured e := by
  induction l generalizing w with
  | nil => exact hw
  | cons a l ih => exact ih _ (send_frame_render_configured pool w a hw)

theorem dispatch_render_configured (pool : BufferPool) (w : World) (ev : Event)
    (hw : ∀ e ∈ w.trace, render_configured e) :
    ∀ e ∈ (dispatch pool w ev).trace, render_configured e := by
  cases ev with
  | global name interface version =>
    simp only [dispatch, handle_global]
    split_ifs
    all_goals first
      | exact hw
      | (apply emit_render_configured _ _ hw
         intro e he
         simp only [List.mem_cons, List.mem_singleton, List.not_mem_nil, or_false] at he
         rcases he with h | h <;> rw [h] <;> trivial)
      | (apply emit_render_configured _ _ hw
         intro e he
         simp only [List.mem_singleton] at he
         rw [he]
         trivial)
  | seat_capabilities seat capabilities wl_pointer calloc_ok =>
    simp only [dispatch, seat_handle_capabilities, create_pointer]
    split_ifs
    all_goals first
      | exact hw
      | (apply emit_render_configured
         · apply emit_render_configured _ _ hw
           intro e he
           simp only [List.mem_singleton] at he
           rw [he]
           trivial
         · intro e he
           simp only [List.mem_singleton] at he
           rw [he]
           trivial)
  | pointer_motion a time fx fy =>
    simp only [dispatch, pointer_handle_motion]
    split
    · exact hw
    · split_ifs
      · exact send_frame_foldl_render_configured pool _ _ hw
      · exact hw
  | pointer_button a serial time button b =>
    simp only [dispatch, pointer_handle_button]
    split
    · exact hw
    · split_ifs
      · exact send_frame_foldl_render_configured pool _ _ hw
      · exact hw
      · exact hw
  | layer_surface_configure a serial width height =>
    simp only [dispatch, layer_surface_handle_configure]
    split
    · exact hw
    · apply send_frame_render_configured
      apply emit_render_configured _ _ hw
      intro e he
      simp only [List.mem_singleton] at he
      rw [he]
      trivial
  | layer_surface_closed a =>
    simp only [dispatch, layer_surface_handle_closed, destroy_output]
    split
    · exact hw
    · apply emit_render_configured _ _ hw
      intro e he
      simp only [List.mem_cons, List.mem_singleton, List.not_mem_nil, or_false] at he
      rcases he with h | h | h | h <;> rw [h] <;> trivial

theorem dispatch_batch_render_configured (pool : BufferPool) (events : List Event) (w : World)
    (hw : ∀ e ∈ w.trace, render_configured e) :
    ∀ e ∈ (dispatch_batch pool w events).trace, render_configured e := by
  induction events generalizing w with
  | nil => exact hw
  | cons ev evs ih => exact ih _ (dispatch_render_configured pool w ev hw)

/-- C6: `send_frame` calls the renderer and attaches, damages and commits a buffer exactly
when the output is configured and the pool hands out a buffer for the output's current
width and height - the trace then grows by the request, the render call and the three
surface requests; when the output is unconfigured or the pool has no buffer, nothing that
paints or presents is added.  Hence, in the trace of any sequence of events, every render
call is for an output that the session handed to the renderer shows as configured: an
unconfigured output is never rendered to. -/
theorem send_frame_renders_iff (pool : BufferPool) :
    (∀ (w : World) (a : Nat),
      (∃ o b, w.state.output_heap[a]? = some o ∧ o.configured = true ∧
          pool w.trace a o.width o.height = some b ∧
          (send_frame pool w a).trace = w.trace ++
            [Effect.get_next_buffer a o.width o.height,
             Effect.render (send_frame pool w a).state a b,
             Effect.wl_surface_attach a b,
             Effect.wl_surface_damage a 0 0 o.width o.height,
             Effect.wl_surface_commit a]) ∨
      ((∀ o, w.state.output_heap[a]? = some o → o.configured = true →
            pool w.trace a o.width o.height = none) ∧
          ∃ new, (send_frame pool w a).trace = w.trace ++ new ∧
            ∀ e ∈ new, paints e = false)) ∧
    (∀ (st : slurg_state) (events : List Event) (st' : slurg_state) (output b : Nat),
      Effect.render st' output b ∈
          (dispatch_batch pool { state := st, trace := [] } events).trace →
        ∃ o, st'.output_heap[output]? = some o ∧ o.configured = true) := by
  constructor
  · intro w a
    by_cases hconf : ∃ o, w.state.output_heap[a]? = some o ∧ o.configured = true
    · obtain ⟨o, ho, hc⟩ := hconf
      have htr := send_frame_trace pool w a o ho hc
      cases hpool : pool w.trace a o.width o.height with
      | none =>
        right
        rw [hpool] at htr
        refine ⟨?_, _, htr, ?_⟩
        · intro o1 h1 _
          rw [ho] at h1
          cases h1
          exact hpool
        · intro e he
          rw [List.mem_singleton.mp he]
          rfl
      | some b =>
        left
        rw [hpool] at htr
        exact ⟨o, b, ho, hc, hpool, htr⟩
    · right
      have hskip : ∀ o, w.state.output_heap[a]? = some o → o.configured = false := by
        intro o ho
        cases hc : o.configured
        · rfl
        · exact absurd ⟨o, ho, hc⟩ hconf
      refine ⟨?_, [], by simp [send_frame_trace_skip pool w a hskip], by simp⟩
      intro o1 h1 hc1
      rw [hskip o1 h1] at hc1
      cases hc1
  · intro st events st' output b hmem
    exact dispatch_batch_render_configured pool events { state := st, trace := [] }
      (fun e he => (by cases he)) _ hmem

/-- C8, the code at a failing input: in a session with two configured outputs the closed
event of output `1` frees the output but leaves its address in `state->outputs` (whereas
`destroy_pointer` unlinks the pointer it frees), so the next press runs `send_frame` on the
freed output first - it asks for a buffer of its size and renders it - which is a use of
freed memory. -/
theorem closed_output_stays_listed :
    (two_output_world free_pool).state.outputs = [1, 0] ∧
    closed_world.state.outputs = [1, 0] ∧
    (closed_world.state.output_heap[1]?).map slurg_output.freed = some true ∧
    ((pointer_handle_button free_pool closed_world 0
        WL_POINTER_BUTTON_STATE_PRESSED).trace.drop closed_world.trace.length).head? =
      some (Effect.get_next_buffer 1 1280 1024) ∧
    (((pointer_handle_button free_pool closed_world 0
        WL_POINTER_BUTTON_STATE_PRESSED).trace.drop closed_world.trace.length).filter
          (renders 1)).length = 1 ∧
    (destroy_pointer closed_world 0).state.pointers = [] ∧
    closed_world.state.undefined_behaviour = false ∧
    (pointer_handle_button free_pool closed_world 0
        WL_POINTER_BUTTON_STATE_PRESSED).state.undefined_behaviour = true := by
  refine ⟨by decide, by decide, by decide, by decide, by decide, by decide, by decide,
    by decide⟩

/-! ## The registry handshake -/

theorem handle_global_caps (w : World) (name : Nat) (interface : String) :
    ((handle_global w name interface).state.compositor = none ↔
      w.state.compositor = none ∧ ¬ interface = wl_compositor_interface_name) ∧
    ((handle_global w name interface).state.shm = none ↔
      w.state.shm = none ∧ ¬ interface = wl_shm_interface_name) ∧
    ((handle_global w name interface).state.layer_shell = none ↔
      w.state.layer_shell = none ∧ ¬ interface = zwlr_layer_shell_v1_interface_name) ∧
    ((handle_global w name interface).state.outputs = [] ↔
      w.state.outputs = [] ∧ ¬ interface = wl_output_interface_name) := by
  have d1 : wl_shm_interface_name ≠ wl_compositor_interface_name := by decide
  have d2 : zwlr_layer_shell_v1_interface_name ≠ wl_compositor_interface_name := by decide
  have d3 : zwlr_layer_shell_v1_interface_name ≠ wl_shm_interface_name := by decide
  have d4 : wl_output_interface_name ≠ wl_compositor_interface_name := by decide
  have d5 : wl_output_interface_name ≠ wl_shm_interface_name := by decide
  have d6 : wl_output_interface_name ≠ zwlr_layer_shell_v1_interface_name := by decide
  have d7 : wl_output_interface_name ≠ wl_seat_interface_name := by decide
  unfold handle_global
  split_ifs with h1 h2 h3 h4 h5
  · subst h1
    simp [emit, d1.symm, d2.symm, d4.symm]
  · subst h2
    simp [emit, d1, d3.symm, d5.symm]
  · subst h3
    simp [emit, d2, d3, d6.symm]
  · subst h4
    simp [emit, h1, h2, h3, d7.symm]
  · subst h5
    simp [emit, d4, d5, d6]
  · simp [h1, h2, h3, h5]

theorem seat_handle_capabilities_caps (w : World) (seat capabilities wl_pointer : Nat)
    (calloc_ok : Bool) :
    (seat_handle_capabilities w seat capabilities wl_pointer calloc_ok).state.compositor
      = w.state.compositor ∧
    (seat_handle_capabilities w seat capabilities wl_pointer calloc_ok).state.shm
      = w.state.shm ∧
    (seat_handle_capabilities w seat capabilities wl_pointer calloc_ok).state.layer_shell
      = w.state.layer_shell ∧
    (seat_handle_capabilities w seat capabilities wl_pointer calloc_ok).state.outputs
      = w.state.outputs ∧
    (seat_handle_capabilities w seat capabilities wl_pointer calloc_ok).state.output_heap
      = w.state.output_heap := by
  unfold seat_handle_capabilities create_pointer
  split_ifs <;> exact ⟨rfl, rfl, rfl, rfl, rfl⟩

theorem handshake_caps (handshake : List RegistryEvent) (w : World) :
    ((handshake.foldl dispatch_registry w).state.compositor = none ↔
      w.state.compositor = none ∧ advertised handshake wl_compositor_interface_name = false) ∧
    ((handshake.foldl dispatch_registry w).state.shm = none ↔
      w.state.shm = none ∧ advertised handshake wl_shm_interface_name = false) ∧
    ((handshake.foldl dispatch_registry w).state.layer_shell = none ↔
      w.state.layer_shell = none ∧
        advertised handshake zwlr_layer_shell_v1_interface_name = false) ∧
    ((handshake.foldl dispatch_registry w).state.outputs = [] ↔
      w.state.outputs = [] ∧ advertised handshake wl_output_interface_name = false) := by
  induction handshake generalizing w with
  | nil => simp [advertised]
  | cons e es ih =>
    obtain ⟨i1, i2, i3, i4⟩ := ih (dispatch_registry w e)
    simp only [List.foldl_cons]
    rw [i1, i2, i3, i4]
    cases e with
    | global name interface version =>
      obtain ⟨g1, g2, g3, g4⟩ := handle_global_caps w name interface
      simp only [dispatch_registry]
      rw [g1, g2, g3, g4]
      simp only [advertised, List.any_cons, is_global, Bool.or_eq_false_iff,
        decide_eq_false_iff_not]
      exact ⟨and_assoc, and_assoc, and_assoc, and_assoc⟩
    | seat_capabilities seat capabilities wl_pointer calloc_ok =>
      obtain ⟨s1, s2, s3, s4, _⟩ :=
        seat_handle_capabilities_caps w seat capabilities wl_pointer calloc_ok
      simp only [dispatch_registry]
      rw [s1, s2, s3, s4]
      simp [advertised, List.any_cons, is_global]

theorem first_output_freed_false (s : slurg_state)
    (h : ∀ o ∈ s.output_heap, o.freed = false) : first_output_freed s = false := by
  unfold first_output_freed
  split
  · rfl
  · split
    · rfl
    · rename_i o ho
      exact h o (mem_of_getElem? _ _ _ ho)

theorem dispatch_registry_inv (w : World) (e : RegistryEvent) (h : handshake_inv w) :
    handshake_inv (dispatch_registry w e) := by
  obtain ⟨h1, h2, h3, h4, h5, h6⟩ := h
  have hemit : ∀ (v : World) (es : List Effect), (∀ x ∈ v.trace, startup_effect x = true) →
      (∀ x ∈ es, startup_effect x = true) → ∀ x ∈ (emit v es).trace, startup_effect x = true := by
    intro v es hv hes x hx
    rcases List.mem_append.mp hx with h | h
    · exact hv x h
    · exact hes x h
  cases e with
  | global name interface version =>
    simp only [dispatch_registry, handle_global]
    split_ifs
    · exact ⟨h1, h2, h3, hemit _ _ h4 (by simp [startup_effect]), h5, h6⟩
    · exact ⟨h1, h2, h3, hemit _ _ h4 (by simp [startup_effect]), h5, h6⟩
    · exact ⟨h1, h2, h3, hemit _ _ h4 (by simp [startup_effect]), h5, h6⟩
    · exact ⟨h1, h2, h3, hemit _ _ h4 (by simp [startup_effect]), h5, h6⟩
    · refine ⟨h1, h2, ?_, hemit _ _ h4 (by simp [startup_effect]), ?_, ?_⟩
      · simp only [emit, List.length_append, List.length_singleton, List.range_succ,
          List.reverse_append, List.reverse_singleton, List.singleton_append]
        rw [← h3]
      · simp only [emit, h5, first_output_freed_false w.state h6, Bool.or_self]
      · intro o ho
        simp only [emit] at ho
        rcases List.mem_append.mp ho with h | h
        · exact h6 o h
        · rw [List.mem_singleton.mp h]
    · exact ⟨h1, h2, h3, h4, h5, h6⟩
  | seat_capabilities seat capabilities wl_pointer calloc_ok =>
    simp only [dispatch_registry, seat_handle_capabilities, create_pointer]
    split_ifs
    · exact ⟨h1, h2, h3, hemit _ _ (hemit _ _ h4 (by simp [startup_effect]))
        (by simp [startup_effect]), h5, h6⟩
    · exact ⟨h1, h2, h3, hemit _ _ (hemit _ _ h4 (by simp [startup_effect]))
        (by simp [startup_effect]), h5, h6⟩
    · exact ⟨h1, h2, h3, h4, h5, h6⟩

theorem handshake_foldl_inv (handshake : List RegistryEvent) (w : World)
    (h : handshake_inv w) : handshake_inv (handshake.foldl dispatch_registry w) := by
  induction handshake generalizing w with
  | nil => exact h
  | cons e es ih => exact ih _ (dispatch_registry_inv w e h)

theorem world_after_handshake_inv (handshake : List RegistryEvent) :
    handshake_inv (world_after_handshake handshake) :=
  handshake_foldl_inv handshake _
    ⟨rfl, rfl, rfl, fun e he => (by cases he), rfl, fun o ho => (by cases ho)⟩

/-! ## The surface creation loop -/

theorem create_layer_surface_step (w : World) (a : Nat) (ha : a < w.state.output_heap.length) :
    (create_layer_surface w a).trace = w.trace ++ surface_setup a ∧
    (create_layer_surface w a).state.output_heap.length = w.state.output_heap.length ∧
    (create_layer_surface w a).state.outputs = w.state.outputs ∧
    (create_layer_surface w a).state.pointer_heap = w.state.pointer_heap ∧
    (create_layer_surface w a).state.running = w.state.running ∧
    (create_layer_surface w a).state.result = w.state.result ∧
    (∃ o, (create_layer_surface w a).state.output_heap[a]? = some o ∧
      o.surface = some a ∧ o.layer_surface = some a) ∧
    (∀ (b : Nat) (o : slurg_output), w.state.output_heap[b]? = some o → o.surface = some b →
      o.layer_surface = some b →
      ∃ o', (create_layer_surface w a).state.output_heap[b]? = some o' ∧
        o'.surface = some b ∧ o'.layer_surface = some b) := by
  have hget : w.state.output_heap[a]? = some (w.state.output_heap[a]) :=
    List.getElem?_eq_getElem ha
  have heq : create_layer_surface w a =
      emit (store_output w a
        { w.state.output_heap[a] with surface := some a, layer_surface := some a })
        (surface_setup a) := by
    simp only [create_layer_surface, hget]
    rfl
  have hnew : (create_layer_surface w a).state.output_heap[a]? =
      some { w.state.output_heap[a] with surface := some a, layer_surface := some a } := by
    rw [heq]
    simp [emit, store_output, ha]
  refine ⟨by rw [heq]; rfl, by rw [heq]; simp [emit, store_output], by rw [heq]; rfl,
    by rw [heq]; rfl, by rw [heq]; rfl, by rw [heq]; rfl, ⟨_, hnew, rfl, rfl⟩, ?_⟩
  intro b o hb hs hl
  by_cases hab : a = b
  · subst hab
    exact ⟨_, hnew, rfl, rfl⟩
  · refine ⟨o, ?_, hs, hl⟩
    rw [heq]
    simp [emit, store_output, List.getElem?_set, hab, hb]

theorem create_layer_surface_foldl (l : List Nat) (w : World)
    (hl : ∀ a ∈ l, a < w.state.output_heap.length) :
    (l.foldl create_layer_surface w).trace = w.trace ++ l.flatMap surface_setup ∧
    (l.foldl create_layer_surface w).state.output_heap.length
      = w.state.output_heap.length ∧
    (l.foldl create_layer_surface w).state.outputs = w.state.outputs ∧
    (l.foldl create_layer_surface w).state.pointer_heap = w.state.pointer_heap ∧
    (l.foldl create_layer_surface w).state.running = w.state.running ∧
    (l.foldl create_layer_surface w).state.result = w.state.result ∧
    (∀ a ∈ l, ∃ o, (l.foldl create_layer_surface w).state.output_heap[a]? = some o ∧
      o.surface = some a ∧ o.layer_surface = some a) ∧
    (∀ (b : Nat) (o : slurg_output), w.state.output_heap[b]? = some o → o.surface = some b →
      o.layer_surface = some b →
      ∃ o', (l.foldl create_layer_surface w).state.output_heap[b]? = some o' ∧
        o'.surface = some b ∧ o'.layer_surface = some b) := by
  induction l generalizing w with
  | nil =>
    refine ⟨by simp, rfl, rfl, rfl, rfl, rfl, by simp, ?_⟩
    intro b o hb hs hls
    exact ⟨o, hb, hs, hls⟩
  | cons a l ih =>
    obtain ⟨s1, s2, s3, s4, s5, s6, s7, s8⟩ :=
      create_layer_surface_step w a (hl a (List.mem_cons_self a l))
    obtain ⟨i1, i2, i3, i4, i5, i6, i7, i8⟩ := ih (create_layer_surface w a)
      (fun b hb => by rw [s2]; exact hl b (List.mem_cons_of_mem a hb))
    simp only [List.foldl_cons]
    refine ⟨?_, i2.trans s2, i3.trans s3, i4.trans s4, i5.trans s5, i6.trans s6, ?_, ?_⟩
    · rw [i1, s1, List.flatMap_cons, List.append_assoc]
    · intro b hb
      rcases List.mem_cons.mp hb with h | h
      · subst h
        obtain ⟨o, ho, hs, hls⟩ := s7
        exact i8 b o ho hs hls
      · exact i7 b h
    · intro b o hb hs hls
      obtain ⟨o', ho', hs', hls'⟩ := s8 b o hb hs hls
      exact i8 b o' ho' hs' hls'

theorem fail_facts (w : World) (message : String) (h : handshake_inv w) :
    (fail w message).status = EXIT_FAILURE ∧ (fail w message).world.state.running = false ∧
    ∀ eff ∈ (fail w message).world.trace, startup_effect eff = true := by
  refine ⟨rfl, h.1, ?_⟩
  intro eff he
  rcases List.mem_append.mp he with h1 | h1
  · exact h.2.2.2.1 eff h1
  · rw [List.mem_singleton.mp h1]
    rfl

theorem initial_caps (handshake : List RegistryEvent) :
    ((world_after_handshake handshake).state.compositor = none ↔
      advertised handshake wl_compositor_interface_name = false) ∧
    ((world_after_handshake handshake).state.shm = none ↔
      advertised handshake wl_shm_interface_name = false) ∧
    ((world_after_handshake handshake).state.layer_shell = none ↔
      advertised handshake zwlr_layer_shell_v1_interface_name = false) ∧
    ((world_after_handshake handshake).state.outputs = [] ↔
      advertised handshake wl_output_interface_name = false) := by
  obtain ⟨h1, h2, h3, h4⟩ :=
    handshake_caps handshake { state := initial_state, trace := [] }
  unfold world_after_handshake
  rw [h1, h2, h3, h4]
  simp [initial_state]

/-- The startup of `main` when every required global and an output are there. -/
theorem main_setup_ok (env : Env) (hc : env.connect_ok = true)
    (h1 : advertised env.handshake wl_compositor_interface_name = true)
    (h2 : advertised env.handshake wl_shm_interface_name = true)
    (h3 : advertised env.handshake zwlr_layer_shell_v1_interface_name = true)
    (h4 : advertised env.handshake wl_output_interface_name = true) :
    main_setup env = Except.ok
      { state := { ((world_after_handshake env.handshake).state.outputs.foldl
                      create_layer_surface (world_after_handshake env.handshake)).state with
                   running := true },
        trace := ((world_after_handshake env.handshake).state.outputs.foldl
                    create_layer_surface (world_after_handshake env.handshake)).trace } := by
  obtain ⟨c1, c2, c3, c4⟩ := initial_caps env.handshake
  have n1 : ¬ (world_after_handshake env.handshake).state.compositor = none := by
    rw [c1, h1]; simp
  have n2 : ¬ (world_after_handshake env.handshake).state.shm = none := by
    rw [c2, h2]; simp
  have n3 : ¬ (world_after_handshake env.handshake).state.layer_shell = none := by
    rw [c3, h3]; simp
  have n4 : ¬ (world_after_handshake env.handshake).state.outputs.isEmpty = true := by
    rw [List.isEmpty_iff, c4, h4]; simp
  unfold world_after_handshake at n1 n2 n3 n4
  simp only [main_setup, hc, world_after_handshake, Bool.true_eq_false, Bool.false_eq_true,
    if_false, n1, n2, n3, n4]

/-- The startup of `main` when a required global or every output is missing. -/
theorem main_setup_error (env : Env) (hc : env.connect_ok = true)
    (hmiss : advertised env.handshake wl_compositor_interface_name = false ∨
      advertised env.handshake wl_shm_interface_name = false ∨
      advertised env.handshake zwlr_layer_shell_v1_interface_name = false ∨
      advertised env.handshake wl_output_interface_name = false) :
    ∃ message, main_setup env =
      Except.error (fail (world_after_handshake env.handshake) message) := by
  obtain ⟨c1, c2, c3, c4⟩ := initial_caps env.handshake
  by_cases a1 : (world_after_handshake env.handshake).state.compositor = none
  · refine ⟨"compositor doesn't support wl_compositor\n", ?_⟩
    unfold world_after_handshake at a1
    simp only [main_setup, hc, world_after_handshake, Bool.true_eq_false, if_false, a1,
      if_true]
  by_cases a2 : (world_after_handshake env.handshake).state.shm = none
  · refine ⟨"compositor doesn't support wl_shm\n", ?_⟩
    unfold world_after_handshake at a1 a2
    simp only [main_setup, hc, world_after_handshake, Bool.true_eq_false, if_false, a1, a2,
      if_true]
  by_cases a3 : (world_after_handshake env.handshake).state.layer_shell = none
  · refine ⟨"compositor doesn't support zwlr_layer_shell_v1\n", ?_⟩
    unfold world_after_handshake at a1 a2 a3
    simp only [main_setup, hc, world_after_handshake, Bool.true_eq_false, if_false, a1, a2,
      a3, if_true]
  by_cases a4 : (world_after_handshake env.handshake).state.outputs = []
  · refine ⟨"no wl_output\n", ?_⟩
    have a4' : (world_after_handshake env.handshake).state.outputs.isEmpty = true :=
      List.isEmpty_iff.mpr a4
    unfold world_after_handshake at a1 a2 a3 a4'
    simp only [main_setup, hc, world_after_handshake, Bool.true_eq_false, if_false, a1, a2,
      a3, a4', if_true]
  · exfalso
    rcases hmiss with h | h | h | h
    · exact a1 (c1.mpr h)
    · exact a2 (c2.mpr h)
    · exact a3 (c3.mpr h)
    · exact a4 (c4.mpr h)

/-- C9: after a successful connection, whenever the registry handshake leaves the
compositor, the shared-memory or the layer-shell global unannounced, or announces no output,
`main` returns `EXIT_FAILURE` whatever events and buffers the environment holds ready - it
never waits for an event - with `running` still false and with nothing done but registry
binds, seat and pointer listener setup and diagnostics: no surface created, no buffer
requested, no render call.  When all four are announced, `main` goes on to set `running`
and to issue, for each output of the list once, the requests that create its surface and its
overlay layer surface. -/
theorem startup_gate (env : Env) (hc : env.connect_ok = true) :
    ((advertised env.handshake wl_compositor_interface_name = false ∨
        advertised env.handshake wl_shm_interface_name = false ∨
        advertised env.handshake zwlr_layer_shell_v1_interface_name = false ∨
        advertised env.handshake wl_output_interface_name = false) →
      ∃ e, (∀ (pool : BufferPool) (batches : List (Option (List Event))),
          main pool (with_batches env batches) = some e) ∧
        e.status = EXIT_FAILURE ∧ e.world.state.running = false ∧
        ∀ eff ∈ e.world.trace, startup_effect eff = true) ∧
    ((advertised env.handshake wl_compositor_interface_name = true ∧
        advertised env.handshake wl_shm_interface_name = true ∧
        advertised env.handshake zwlr_layer_shell_v1_interface_name = true ∧
        advertised env.handshake wl_output_interface_name = true) →
      ∃ w, main_setup env = Except.ok w ∧ w.state.running = true ∧
        w.state.outputs ≠ [] ∧ w.state.outputs.Nodup ∧
        w.trace = (world_after_handshake env.handshake).trace ++
          w.state.outputs.flatMap surface_setup ∧
        ∀ a ∈ w.state.outputs, ∃ o, w.state.output_heap[a]? = some o ∧
          o.surface = some a ∧ o.layer_surface = some a) := by
  have hinv := world_after_handshake_inv env.handshake
  constructor
  · intro hmiss
    obtain ⟨message, hmsg⟩ := main_setup_error env hc hmiss
    obtain ⟨f1, f2, f3⟩ := fail_facts (world_after_handshake env.handshake) message hinv
    refine ⟨fail (world_after_handshake env.handshake) message, ?_, f1, f2, f3⟩
    intro pool batches
    have hsame : main_setup (with_batches env batches) = main_setup env := rfl
    simp only [main, hsame, hmsg]
  · rintro ⟨h1, h2, h3, h4⟩
    have hvalid : ∀ a ∈ (world_after_handshake env.handshake).state.outputs,
        a < (world_after_handshake env.handshake).state.output_heap.length := by
      intro a ha
      rw [hinv.2.2.1] at ha
      exact List.mem_range.mp (List.mem_reverse.mp ha)
    obtain ⟨s1, _, s3, _, _, _, s7, _⟩ := create_layer_surface_foldl
      (world_after_handshake env.handshake).state.outputs
      (world_after_handshake env.handshake) hvalid
    refine ⟨_, main_setup_ok env hc h1 h2 h3 h4, rfl, ?_, ?_, ?_, ?_⟩
    · show ((world_after_handshake env.handshake).state.outputs.foldl create_layer_surface
        (world_after_handshake env.handshake)).state.outputs ≠ []
      rw [s3]
      intro hempty
      have := (initial_caps env.handshake).2.2.2.mp hempty
      rw [h4] at this
      cases this
    · show ((world_after_handshake env.handshake).state.outputs.foldl create_layer_surface
        (world_after_handshake env.handshake)).state.outputs.Nodup
      rw [s3, hinv.2.2.1]
      exact List.nodup_reverse.mpr (List.nodup_range _)
    · show ((world_after_handshake env.handshake).state.outputs.foldl create_layer_surface
        (world_after_handshake env.handshake)).trace = _ ++
          ((world_after_handshake env.handshake).state.outputs.foldl create_layer_surface
            (world_after_handshake env.handshake)).state.outputs.flatMap surface_setup
      rw [s3]
      exact s1
    · intro a ha
      have ha' : a ∈ (world_after_handshake env.handshake).state.outputs := by
        rw [← s3]
        exact ha
      exact s7 a ha'

/-- C9 on a registry that lacks the layer shell: `main` fails at once, on any events. -/
theorem startup_gate_witness :
    ∃ e, (∀ (pool : BufferPool) (batches : List (Option (List Event))),
        main pool (with_batches no_layer_shell_env batches) = some e) ∧
      e.status = EXIT_FAILURE ∧ e.world.state.running = false ∧
      ∀ eff ∈ e.world.trace, startup_effect eff = true :=
  (startup_gate no_layer_shell_env rfl).1 (Or.inr (Or.inr (Or.inl (by decide))))

/-! ## Standard output -/

theorem stdout_text_append (xs ys : List Effect) :
    stdout_text (xs ++ ys) = stdout_text xs ++ stdout_text ys := by
  induction xs with
  | nil => simp [stdout_text]
  | cons e es ih => cases e <;> simp [stdout_text, ih, String.append_assoc]

theorem send_frame_stdout (pool : BufferPool) (w : World) (a : Nat) :
    stdout_text (send_frame pool w a).trace = stdout_text w.trace := by
  unfold send_frame
  split
  · rfl
  · split
    · rfl
    · simp only []
      split <;> simp [emit, store_output, undefined_if, stdout_text_append, stdout_text]

theorem send_frame_foldl_stdout (pool : BufferPool) (l : List Nat) (w : World) :
    stdout_text (l.foldl (send_frame pool) w).trace = stdout_text w.trace := by
  induction l generalizing w with
  | nil => rfl
  | cons a l ih => exact (ih _).trans (send_frame_stdout pool w a)

theorem dispatch_stdout (pool : BufferPool) (w : World) (e : Event) :
    stdout_text (dispatch pool w e).trace = stdout_text w.trace := by
  cases e with
  | global name interface version =>
    simp only [dispatch, handle_global]
    split_ifs <;> simp [emit, stdout_text_append, stdout_text]
  | seat_capabilities seat capabilities wl_pointer calloc_ok =>
    simp only [dispatch, seat_handle_capabilities, create_pointer]
    split_ifs <;> simp [emit, stdout_text_append, stdout_text]
  | pointer_motion a time fx fy =>
    simp only [dispatch, pointer_handle_motion]
    split
    · rfl
    · split_ifs
      · exact send_frame_foldl_stdout pool _ _
      · rfl
  | pointer_button a serial time button b =>
    simp only [dispatch, pointer_handle_button]
    split
    · rfl
    · split_ifs
      · exact send_frame_foldl_stdout pool _ _
      · rfl
      · rfl
  | layer_surface_configure a serial width height =>
    simp only [dispatch, layer_surface_handle_configure]
    split
    · rfl
    · rw [send_frame_stdout]
      simp [emit, store_output, stdout_text_append, stdout_text]
  | layer_surface_closed a =>
    simp only [dispatch, layer_surface_handle_closed, destroy_output]
    split
    · rfl
    · simp [emit, store_output, undefined_if, stdout_text_append, stdout_text]

theorem dispatch_batch_stdout (pool : BufferPool) (events : List Event) (w : World) :
    stdout_text (dispatch_batch pool w events).trace = stdout_text w.trace := by
  induction events generalizing w with
  | nil => rfl
  | cons e es ih => exact (ih _).trans (dispatch_stdout pool w e)

theorem startup_effects_stdout (trace : List Effect)
    (h : ∀ e ∈ trace, startup_effect e = true) : stdout_text trace = "" := by
  induction trace with
  | nil => rfl
  | cons e es ih =>
    have he := h e (List.mem_cons_self e es)
    have hes := ih (fun x hx => h x (List.mem_cons_of_mem e hx))
    cases e <;> simp [startup_effect] at he <;> simpa [stdout_text] using hes

theorem surface_setup_stdout (l : List Nat) : stdout_text (l.flatMap surface_setup) = "" := by
  induction l with
  | nil => rfl
  | cons a l ih =>
    rw [List.flatMap_cons, stdout_text_append, ih]
    rfl

theorem handshake_in_range (handshake : List RegistryEvent) (w : World)
    (hw : ∀ p ∈ w.state.pointer_heap, coordinates_in_range p) :
    ∀ p ∈ (handshake.foldl dispatch_registry w).state.pointer_heap,
      coordinates_in_range p := by
  induction handshake generalizing w with
  | nil => exact hw
  | cons e es ih =>
    apply ih
    cases e with
    | global name interface version =>
      simp only [dispatch_registry, (handle_global_pointer_heap w name interface).1]
      exact hw
    | seat_capabilities seat capabilities wl_pointer calloc_ok =>
      simp only [dispatch_registry]
      rcases (seat_handle_capabilities_pointer_heap w seat capabilities wl_pointer
        calloc_ok).1 with h | h
      · rw [h]
        exact hw
      · rw [h]
        intro p hp
        rcases List.mem_append.mp hp with h1 | h1
        · exact hw p h1
        · rw [List.mem_singleton.mp h1]
          simp [coordinates_in_range, resting_pointer]

/-- The world a successful startup of `main` leaves: the handshake, the surface creation
loop, and `running` set. -/
theorem main_setup_world (env : Env) (w : World) (h : main_setup env = Except.ok w) :
    w = { state := { ((world_after_handshake env.handshake).state.outputs.foldl
                        create_layer_surface (world_after_handshake env.handshake)).state with
                     running := true },
          trace := ((world_after_handshake env.handshake).state.outputs.foldl
                      create_layer_surface (world_after_handshake env.handshake)).trace } := by
  cases hc : env.connect_ok with
  | false =>
    simp [main_setup, hc] at h
  | true =>
    by_cases hall : advertised env.handshake wl_compositor_interface_name = true ∧
        advertised env.handshake wl_shm_interface_name = true ∧
        advertised env.handshake zwlr_layer_shell_v1_interface_name = true ∧
        advertised env.handshake wl_output_interface_name = true
    · obtain ⟨h1, h2, h3, h4⟩ := hall
      rw [main_setup_ok env hc h1 h2 h3 h4] at h
      cases h
      rfl
    · have hmiss : advertised env.handshake wl_compositor_interface_name = false ∨
          advertised env.handshake wl_shm_interface_name = false ∨
          advertised env.handshake zwlr_layer_shell_v1_interface_name = false ∨
          advertised env.handshake wl_output_interface_name = false := by
        cases h1 : advertised env.handshake wl_compositor_interface_name
        · exact Or.inl rfl
        · cases h2 : advertised env.handshake wl_shm_interface_name
          · exact Or.inr (Or.inl rfl)
          · cases h3 : advertised env.handshake zwlr_layer_shell_v1_interface_name
            · exact Or.inr (Or.inr (Or.inl rfl))
            · cases h4 : advertised env.handshake wl_output_interface_name
              · exact Or.inr (Or.inr (Or.inr rfl))
              · exact absurd ⟨h1, h2, h3, h4⟩ hall
      obtain ⟨message, hmsg⟩ := main_setup_error env hc hmiss
      rw [hmsg] at h
      cases h

theorem handshake_outputs_valid (handshake : List RegistryEvent) :
    ∀ a ∈ (world_after_handshake handshake).state.outputs,
      a < (world_after_handshake handshake).state.output_heap.length := by
  intro a ha
  rw [(world_after_handshake_inv handshake).2.2.1] at ha
  exact List.mem_range.mp (List.mem_reverse.mp ha)

/-- What every world that leaves the startup of `main` satisfies. -/
theorem main_setup_facts (env : Env) (w : World) (h : main_setup env = Except.ok w) :
    w.state.running = true ∧ stdout_text w.trace = "" ∧
    ∀ p ∈ w.state.pointer_heap, coordinates_in_range p := by
  have hinv := world_after_handshake_inv env.handshake
  have hrange := handshake_in_range env.handshake { state := initial_state, trace := [] }
    (fun p hp => (by cases hp))
  obtain ⟨s1, _, _, s4, _⟩ := create_layer_surface_foldl
    (world_after_handshake env.handshake).state.outputs
    (world_after_handshake env.handshake) (handshake_outputs_valid env.handshake)
  rw [main_setup_world env w h]
  refine ⟨rfl, ?_, ?_⟩
  · show stdout_text ((world_after_handshake env.handshake).state.outputs.foldl
      create_layer_surface (world_after_handshake env.handshake)).trace = ""
    rw [s1, stdout_text_append, startup_effects_stdout _ hinv.2.2.2.1,
      surface_setup_stdout]
    rfl
  · show ∀ p ∈ ((world_after_handshake env.handshake).state.outputs.foldl
      create_layer_surface (world_after_handshake env.handshake)).state.pointer_heap,
      coordinates_in_range p
    rw [s4]
    exact hrange

theorem create_layer_surface_foldl_unfreed (l : List Nat) (w : World) :
    (l.foldl create_layer_surface w).state.undefined_behaviour
      = w.state.undefined_behaviour ∧
    ((∀ o ∈ w.state.output_heap, o.freed = false) →
      ∀ o ∈ (l.foldl create_layer_surface w).state.output_heap, o.freed = false) := by
  induction l generalizing w with
  | nil => exact ⟨rfl, fun h => h⟩
  | cons a l ih =>
    obtain ⟨i1, i2⟩ := ih (create_layer_surface w a)
    have hstep : (create_layer_surface w a).state.undefined_behaviour
          = w.state.undefined_behaviour ∧
        ((∀ o ∈ w.state.output_heap, o.freed = false) →
          ∀ o ∈ (create_layer_surface w a).state.output_heap, o.freed = false) := by
      unfold create_layer_surface
      split
      · exact ⟨rfl, fun h => h⟩
      · rename_i o ho
        refine ⟨rfl, fun h => ?_⟩
        exact forall_mem_set _ _ _ _ h (h o (mem_of_getElem? _ _ _ ho))
    exact ⟨i1.trans hstep.1, fun h => i2 (hstep.2 h)⟩

/-- After the startup of `main` the outputs are sound: nothing undefined has happened, and
every allocated output is listed once, unfreed, with its surface and layer surface. -/
theorem main_setup_sound (env : Env) (w : World) (h : main_setup env = Except.ok w) :
    outputs_sound w.state := by
  have hinv := world_after_handshake_inv env.handshake
  obtain ⟨_, s2, s3, _, _, _, s7, _⟩ := create_layer_surface_foldl
    (world_after_handshake env.handshake).state.outputs
    (world_after_handshake env.handshake) (handshake_outputs_valid env.handshake)
  obtain ⟨u1, u2⟩ := create_layer_surface_foldl_unfreed
    (world_after_handshake env.handshake).state.outputs
    (world_after_handshake env.handshake)
  rw [main_setup_world env w h]
  refine ⟨u1.trans hinv.2.2.2.2.1, ?_, ?_⟩
  · show ((world_after_handshake env.handshake).state.outputs.foldl create_layer_surface
      (world_after_handshake env.handshake)).state.outputs.Nodup
    rw [s3, hinv.2.2.1]
    exact List.nodup_reverse.mpr (List.nodup_range _)
  · intro o ho
    have ho' : o ∈ ((world_after_handshake env.handshake).state.outputs.foldl
        create_layer_surface (world_after_handshake env.handshake)).state.output_heap := ho
    obtain ⟨i, hi, hget⟩ := List.getElem_of_mem ho'
    have hi' : i < (world_after_handshake env.handshake).state.output_heap.length := by
      rw [← s2]
      exact hi
    have hmem : i ∈ (world_after_handshake env.handshake).state.outputs := by
      rw [hinv.2.2.1]
      exact List.mem_reverse.mpr (List.mem_range.mpr hi')
    obtain ⟨o1, ho1, hs1, hl1⟩ := s7 i hmem
    rw [List.getElem?_eq_getElem hi, hget] at ho1
    cases ho1
    refine ⟨u2 hinv.2.2.2.2.2 o ho', ?_, ?_⟩
    · rw [hs1]
      rfl
    · rw [hl1]
      rfl

/-! ## Following one pointer through the events -/

theorem getElem?_set_other {α : Type} (l : List α) (a b : Nat) (x y : α) (hab : b ≠ a)
    (h : l[a]? = some x) : (l.set b y)[a]? = some x := by
  rw [List.getElem?_set]
  simp [hab, h]

theorem getElem?_set_same {α : Type} (l : List α) (a : Nat) (x y : α)
    (h : l[a]? = some x) : (l.set a y)[a]? = some y := by
  have hlt := getElem?_lt l a x h
  simp [hlt]

/-- Every event leaves an allocated pointer allocated; its press origin changes only by a
button event of that pointer, its position only by a motion event of that pointer. -/
theorem dispatch_pointer (pool : BufferPool) (w : World) (e : Event) (a : Nat)
    (p : slurg_pointer) (hp : w.state.pointer_heap[a]? = some p) :
    ∃ p', (dispatch pool w e).state.pointer_heap[a]? = some p' ∧
      (is_button_of a e = false → p'.pressed_x = p.pressed_x ∧ p'.pressed_y = p.pressed_y) ∧
      (is_motion_of a e = false → p'.x = p.x ∧ p'.y = p.y) := by
  cases e with
  | global name interface version =>
    simp only [dispatch, (handle_global_pointer_heap w name interface).1]
    exact ⟨p, hp, fun _ => ⟨rfl, rfl⟩, fun _ => ⟨rfl, rfl⟩⟩
  | seat_capabilities seat capabilities wl_pointer calloc_ok =>
    simp only [dispatch]
    rcases (seat_handle_capabilities_pointer_heap w seat capabilities wl_pointer calloc_ok).1
      with h | h
    · rw [h]
      exact ⟨p, hp, fun _ => ⟨rfl, rfl⟩, fun _ => ⟨rfl, rfl⟩⟩
    · rw [h]
      refine ⟨p, ?_, fun _ => ⟨rfl, rfl⟩, fun _ => ⟨rfl, rfl⟩⟩
      rw [List.getElem?_append_left (getElem?_lt _ _ _ hp)]
      exact hp
  | pointer_motion b time fx fy =>
    simp only [dispatch]
    cases hq : w.state.pointer_heap[b]? with
    | none =>
      simp only [pointer_handle_motion, hq]
      exact ⟨p, hp, fun _ => ⟨rfl, rfl⟩, fun _ => ⟨rfl, rfl⟩⟩
    | some q =>
      rw [(motion_pointer_heap pool w b fx fy q hq).1]
      by_cases hab : b = a
      · subst hab
        rw [hp] at hq
        cases hq
        refine ⟨_, getElem?_set_same _ _ _ _ hp, fun _ => ⟨rfl, rfl⟩, ?_⟩
        intro hm
        simp [is_motion_of] at hm
      · exact ⟨p, getElem?_set_other _ _ _ _ _ hab hp, fun _ => ⟨rfl, rfl⟩,
          fun _ => ⟨rfl, rfl⟩⟩
  | pointer_button b serial time button bs =>
    simp only [dispatch]
    cases hq : w.state.pointer_heap[b]? with
    | none =>
      simp only [pointer_handle_button, hq]
      exact ⟨p, hp, fun _ => ⟨rfl, rfl⟩, fun _ => ⟨rfl, rfl⟩⟩
    | some q =>
      by_cases hab : b = a
      · subst hab
        rw [hp] at hq
        cases hq
        have hnb : is_button_of b (Event.pointer_button b serial time button bs) = false →
            False := by
          intro hm
          simp [is_button_of] at hm
        by_cases h1 : bs = WL_POINTER_BUTTON_STATE_PRESSED
        · subst h1
          rw [(press_pointer_heap pool w b p hp).1]
          exact ⟨_, getElem?_set_same _ _ _ _ hp, fun hm => (hnb hm).elim,
            fun _ => ⟨rfl, rfl⟩⟩
        · by_cases h0 : bs = WL_POINTER_BUTTON_STATE_RELEASED
          · subst h0
            rw [release_state pool w b p hp]
            exact ⟨_, getElem?_set_same _ _ _ _ hp, fun hm => (hnb hm).elim,
              fun _ => ⟨rfl, rfl⟩⟩
          · rw [other_button_state pool w b bs p hp h1 h0]
            exact ⟨_, getElem?_set_same _ _ _ _ hp, fun hm => (hnb hm).elim,
              fun _ => ⟨rfl, rfl⟩⟩
      · by_cases h1 : bs = WL_POINTER_BUTTON_STATE_PRESSED
        · subst h1
          rw [(press_pointer_heap pool w b q hq).1]
          exact ⟨p, getElem?_set_other _ _ _ _ _ hab hp, fun _ => ⟨rfl, rfl⟩,
            fun _ => ⟨rfl, rfl⟩⟩
        · by_cases h0 : bs = WL_POINTER_BUTTON_STATE_RELEASED
          · subst h0
            rw [release_state pool w b q hq]
            exact ⟨p, getElem?_set_other _ _ _ _ _ hab hp, fun _ => ⟨rfl, rfl⟩,
              fun _ => ⟨rfl, rfl⟩⟩
          · rw [other_button_state pool w b bs q hq h1 h0]
            exact ⟨p, getElem?_set_other _ _ _ _ _ hab hp, fun _ => ⟨rfl, rfl⟩,
              fun _ => ⟨rfl, rfl⟩⟩
  | layer_surface_configure b serial width height =>
    simp only [dispatch, (configure_pointer_heap pool w b serial width height).1]
    exact ⟨p, hp, fun _ => ⟨rfl, rfl⟩, fun _ => ⟨rfl, rfl⟩⟩
  | layer_surface_closed b =>
    simp only [dispatch, (closed_pointer_heap w b).1]
    exact ⟨p, hp, fun _ => ⟨rfl, rfl⟩, fun _ => ⟨rfl, rfl⟩⟩

theorem dispatch_batch_pointer (pool : BufferPool) (events : List Event) (w : World)
    (a : Nat) (p : slurg_pointer) (hp : w.state.pointer_heap[a]? = some p) :
    ∃ p', (dispatch_batch pool w events).state.pointer_heap[a]? = some p' ∧
      ((∀ e ∈ events, is_button_of a e = false) →
        p'.pressed_x = p.pressed_x ∧ p'.pressed_y = p.pressed_y) ∧
      ((∀ e ∈ events, is_motion_of a e = false) → p'.x = p.x ∧ p'.y = p.y) := by
  induction events generalizing w p with
  | nil => exact ⟨p, hp, fun _ => ⟨rfl, rfl⟩, fun _ => ⟨rfl, rfl⟩⟩
  | cons e es ih =>
    obtain ⟨p1, hp1, hb1, hm1⟩ := dispatch_pointer pool w e a p hp
    obtain ⟨p2, hp2, hb2, hm2⟩ := ih (dispatch pool w e) p1 hp1
    refine ⟨p2, hp2, ?_, ?_⟩
    · intro hall
      have h1 := hb1 (hall e (List.mem_cons_self e es))
      have h2 := hb2 (fun x hx => hall x (List.mem_cons_of_mem e hx))
      exact ⟨h2.1.trans h1.1, h2.2.trans h1.2⟩
    · intro hall
      have h1 := hm1 (hall e (List.mem_cons_self e es))
      have h2 := hm2 (fun x hx => hall x (List.mem_cons_of_mem e hx))
      exact ⟨h2.1.trans h1.1, h2.2.trans h1.2⟩

/-- Only a button release clears the running flag. -/
theorem dispatch_running (pool : BufferPool) (w : World) (e : Event)
    (he : is_release e = false) : (dispatch pool w e).state.running = w.state.running := by
  cases e with
  | global name interface version =>
    exact (handle_global_pointer_heap w name interface).2.1
  | seat_capabilities seat capabilities wl_pointer calloc_ok =>
    exact (seat_handle_capabilities_pointer_heap w seat capabilities wl_pointer calloc_ok).2.1
  | pointer_motion b time fx fy =>
    simp only [dispatch]
    cases hq : w.state.pointer_heap[b]? with
    | none => simp only [pointer_handle_motion, hq]
    | some q => exact (motion_pointer_heap pool w b fx fy q hq).2.1
  | pointer_button b serial time button bs =>
    simp only [dispatch]
    have h0 : bs ≠ WL_POINTER_BUTTON_STATE_RELEASED := by
      intro h
      simp [is_release, h] at he
    cases hq : w.state.pointer_heap[b]? with
    | none => simp only [pointer_handle_button, hq]
    | some q =>
      by_cases h1 : bs = WL_POINTER_BUTTON_STATE_PRESSED
      · subst h1
        exact (press_pointer_heap pool w b q hq).2.1
      · rw [other_button_state pool w b bs q hq h1 h0]
  | layer_surface_configure b serial width height =>
    exact (configure_pointer_heap pool w b serial width height).2.1
  | layer_surface_closed b =>
    exact (closed_pointer_heap w b).2.1

theorem dispatch_batch_running (pool : BufferPool) (events : List Event) (w : World)
    (he : ∀ e ∈ events, is_release e = false) :
    (dispatch_batch pool w events).state.running = w.state.running := by
  induction events generalizing w with
  | nil => rfl
  | cons e es ih =>
    exact (ih (dispatch pool w e) (fun x hx => he x (List.mem_cons_of_mem e hx))).trans
      (dispatch_running pool w e (he e (List.mem_cons_self e es)))

/-! ## The event loop and the teardown -/

theorem event_loop_stopped (pool : BufferPool) (w : World)
    (batches : List (Option (List Event))) (h : w.state.running = false) :
    event_loop pool w batches = some w := by
  cases batches <;> simp [event_loop, h]

theorem event_loop_batch (pool : BufferPool) (w : World) (events : List Event)
    (batches : List (Option (List Event))) (h : w.state.running = true) :
    event_loop pool w (some events :: batches) =
      event_loop pool (dispatch_batch pool w events) batches := by
  simp [event_loop, h]

theorem foldl_dispatch_batch (pool : BufferPool) (earlier : List (List Event)) (w : World) :
    earlier.foldl (dispatch_batch pool) w = dispatch_batch pool w earlier.flatten := by
  induction earlier generalizing w with
  | nil => rfl
  | cons b bs ih =>
    rw [List.foldl_cons, ih, List.flatten_cons, dispatch_batch_append]

theorem event_loop_skip (pool : BufferPool) (earlier : List (List Event)) (w : World)
    (rest : List (Option (List Event))) (hr : w.state.running = true)
    (he : ∀ batch ∈ earlier, ∀ e ∈ batch, is_release e = false) :
    event_loop pool w (earlier.map some ++ rest) =
      event_loop pool (dispatch_batch pool w earlier.flatten) rest := by
  induction earlier generalizing w with
  | nil => rfl
  | cons b bs ih =>
    have hb : (dispatch_batch pool w b).state.running = true :=
      (dispatch_batch_running pool b w (he b (List.mem_cons_self b bs))).trans hr
    rw [List.map_cons, List.cons_append, event_loop_batch pool w b _ hr,
      ih (dispatch_batch pool w b) hb (fun x hx => he x (List.mem_cons_of_mem b hx)),
      List.flatten_cons, dispatch_batch_append]

theorem destroy_pointer_facts (w : World) (a : Nat) :
    (destroy_pointer w a).state.result = w.state.result ∧
    (destroy_pointer w a).state.running = w.state.running ∧
    stdout_text (destroy_pointer w a).trace = stdout_text w.trace := by
  unfold destroy_pointer
  split
  · exact ⟨rfl, rfl, rfl⟩
  · refine ⟨rfl, rfl, ?_⟩
    simp [emit, store_pointer, stdout_text_append, stdout_text]

theorem destroy_output_facts (w : World) (a : Nat) :
    (destroy_output w a).state.result = w.state.result ∧
    (destroy_output w a).state.running = w.state.running ∧
    stdout_text (destroy_output w a).trace = stdout_text w.trace := by
  unfold destroy_output
  split
  · exact ⟨rfl, rfl, rfl⟩
  · refine ⟨rfl, rfl, ?_⟩
    simp [emit, store_output, undefined_if, stdout_text_append, stdout_text]

theorem foldl_facts (f : World → Nat → World)
    (hf : ∀ w a, (f w a).state.result = w.state.result ∧
      (f w a).state.running = w.state.running ∧
      stdout_text (f w a).trace = stdout_text w.trace) (l : List Nat) (w : World) :
    (l.foldl f w).state.result = w.state.result ∧
    (l.foldl f w).state.running = w.state.running ∧
    stdout_text (l.foldl f w).trace = stdout_text w.trace := by
  induction l generalizing w with
  | nil => exact ⟨rfl, rfl, rfl⟩
  | cons a l ih =>
    obtain ⟨i1, i2, i3⟩ := ih (f w a)
    obtain ⟨f1, f2, f3⟩ := hf w a
    exact ⟨i1.trans f1, i2.trans f2, i3.trans f3⟩

/-- The teardown changes neither the result nor the running flag, and prints nothing. -/
theorem teardown_facts (w : World) :
    (teardown w).state.result = w.state.result ∧
    (teardown w).state.running = w.state.running ∧
    stdout_text (teardown w).trace = stdout_text w.trace := by
  obtain ⟨p1, p2, p3⟩ := foldl_facts destroy_pointer destroy_pointer_facts w.state.pointers w
  obtain ⟨o1, o2, o3⟩ := foldl_facts destroy_output destroy_output_facts
    (w.state.pointers.foldl destroy_pointer w).state.outputs
    (w.state.pointers.foldl destroy_pointer w)
  exact ⟨o1.trans p1, o2.trans p2, o3.trans p3⟩

/-- The report of `main` for a session that ends with a non-empty rectangle. -/
theorem main_finish_success (w : World)
    (h : ¬ (w.state.result.width = 0 ∧ w.state.result.height = 0))
    (hq : stdout_text w.trace = "") :
    (main_finish w).status = EXIT_SUCCESS ∧
    (main_finish w).world.state.running = w.state.running ∧
    (main_finish w).world.state.result = w.state.result ∧
    stdout_text (main_finish w).world.trace = format_box w.state.result ∧
    (main_finish w).world.state = (teardown w).state := by
  obtain ⟨t1, t2, t3⟩ := teardown_facts w
  have h' : ¬ ((teardown w).state.result.width = 0 ∧ (teardown w).state.result.height = 0) := by
    rw [t1]
    exact h
  have heq : main_finish w =
      { status := EXIT_SUCCESS,
        world := emit (teardown w)
          [Effect.printf_stdout (format_box (teardown w).state.result)] } := by
    simp only [main_finish, h', if_false]
  rw [heq]
  refine ⟨rfl, t2, t1, ?_, rfl⟩
  simp only [emit, stdout_text_append, t3, hq, t1, stdout_text]
  simp

/-- The report of `main` for a session that ends with an empty rectangle. -/
theorem main_finish_cancel (w : World)
    (h : w.state.result.width = 0 ∧ w.state.result.height = 0)
    (hq : stdout_text w.trace = "") :
    (main_finish w).status = EXIT_FAILURE ∧
    (main_finish w).world.state.running = w.state.running ∧
    (main_finish w).world.state.result = w.state.result ∧
    stdout_text (main_finish w).world.trace = "" ∧
    (main_finish w).world.trace =
      (teardown w).trace ++ [Effect.fprintf_stderr "selection cancelled\n"] ∧
    (main_finish w).world.state = (teardown w).state := by
  obtain ⟨t1, t2, t3⟩ := teardown_facts w
  have h' : (teardown w).state.result.width = 0 ∧ (teardown w).state.result.height = 0 := by
    rw [t1]
    exact h
  have heq : main_finish w = fail (teardown w) "selection cancelled\n" := by
    simp only [main_finish, h', and_self, if_true]
  rw [heq]
  refine ⟨rfl, t2, t1, ?_, rfl, rfl⟩
  simp only [fail, emit, stdout_text_append, t3, hq, stdout_text]
  rfl

/-! ## Sessions whose outputs stay as the startup left them -/

theorem send_frame_sound (pool : BufferPool) (w : World) (a : Nat)
    (h : outputs_sound w.state) : outputs_sound (send_frame pool w a).state := by
  obtain ⟨h1, h2, h3⟩ := h
  unfold send_frame
  split
  · exact ⟨h1, h2, h3⟩
  · rename_i o ho
    obtain ⟨f1, f2, f3⟩ := h3 o (mem_of_getElem? _ _ _ ho)
    have hnone : o.surface.isNone = false := by
      cases hs : o.surface
      · rw [hs] at f2
        cases f2
      · rfl
    split
    · refine ⟨?_, h2, h3⟩
      simp [undefined_if, h1, f1]
    · simp only []
      have hub : (undefined_if w (o.freed ||
          ((pool w.trace a o.width o.height).isSome && o.surface.isNone))
          ).state.undefined_behaviour = false := by
        simp [undefined_if, h1, f1, hnone]
      have hheap : ∀ o' ∈ w.state.output_heap.set a
          { o with current_buffer := pool w.trace a o.width o.height },
          o'.freed = false ∧ o'.surface.isSome = true ∧ o'.layer_surface.isSome = true :=
        forall_mem_set _ _ _ _ h3 ⟨f1, f2, f3⟩
      split
      · exact ⟨hub, h2, hheap⟩
      · exact ⟨hub, h2, hheap⟩

theorem send_frame_foldl_sound (pool : BufferPool) (l : List Nat) (w : World)
    (h : outputs_sound w.state) : outputs_sound (l.foldl (send_frame pool) w).state := by
  induction l generalizing w with
  | nil => exact h
  | cons a l ih => exact ih _ (send_frame_sound pool w a h)

theorem store_pointer_sound (w : World) (a : Nat) (p : slurg_pointer)
    (h : outputs_sound w.state) : outputs_sound (store_pointer w a p).state := h

/-- An event that neither closes nor adds an output leaves the outputs sound. -/
theorem dispatch_sound (pool : BufferPool) (w : World) (e : Event)
    (h : outputs_sound w.state) (he : keeps_outputs e = true) :
    outputs_sound (dispatch pool w e).state := by
  cases e with
  | global name interface version =>
    have hno : ¬ interface = wl_output_interface_name := by
      simpa [keeps_outputs] using he
    simp only [dispatch, handle_global]
    split_ifs <;> exact h
  | seat_capabilities seat capabilities wl_pointer calloc_ok =>
    simp only [dispatch, seat_handle_capabilities, create_pointer]
    split_ifs <;> exact h
  | pointer_motion a time fx fy =>
    simp only [dispatch, pointer_handle_motion]
    split
    · exact h
    · split_ifs
      · exact send_frame_foldl_sound pool _ _ h
      · exact h
  | pointer_button a serial time button b =>
    simp only [dispatch, pointer_handle_button]
    split
    · exact h
    · split_ifs
      · exact send_frame_foldl_sound pool _ _ h
      · exact h
      · exact h
  | layer_surface_configure a serial width height =>
    simp only [dispatch, layer_surface_handle_configure]
    split
    · exact h
    · rename_i o ho
      apply send_frame_sound
      obtain ⟨h1, h2, h3⟩ := h
      exact ⟨h1, h2, forall_mem_set _ _ _ _ h3 (h3 o (mem_of_getElem? _ _ _ ho))⟩
  | layer_surface_closed a =>
    simp [keeps_outputs] at he

theorem dispatch_batch_sound (pool : BufferPool) (events : List Event) (w : World)
    (h : outputs_sound w.state) (he : ∀ e ∈ events, keeps_outputs e = true) :
    outputs_sound (dispatch_batch pool w events).state := by
  induction events generalizing w with
  | nil => exact h
  | cons e es ih =>
    exact ih (dispatch pool w e) (dispatch_sound pool w e h (he e (List.mem_cons_self e es)))
      (fun x hx => he x (List.mem_cons_of_mem e hx))

theorem destroy_pointer_outputs (w : World) (a : Nat) :
    (destroy_pointer w a).state.undefined_behaviour = w.state.undefined_behaviour ∧
    (destroy_pointer w a).state.outputs = w.state.outputs ∧
    (destroy_pointer w a).state.output_heap = w.state.output_heap := by
  unfold destroy_pointer
  split <;> exact ⟨rfl, rfl, rfl⟩

theorem destroy_pointer_foldl_outputs (l : List Nat) (w : World) :
    (l.foldl destroy_pointer w).state.undefined_behaviour = w.state.undefined_behaviour ∧
    (l.foldl destroy_pointer w).state.outputs = w.state.outputs ∧
    (l.foldl destroy_pointer w).state.output_heap = w.state.output_heap := by
  induction l generalizing w with
  | nil => exact ⟨rfl, rfl, rfl⟩
  | cons a l ih =>
    obtain ⟨i1, i2, i3⟩ := ih (destroy_pointer w a)
    obtain ⟨d1, d2, d3⟩ := destroy_pointer_outputs w a
    exact ⟨i1.trans d1, i2.trans d2, i3.trans d3⟩

/-- Destroying, once each, outputs that are unfreed and have their surfaces is defined. -/
theorem destroy_output_foldl_defined (l : List Nat) (w : World) (hnodup : l.Nodup)
    (hub : w.state.undefined_behaviour = false)
    (hl : ∀ a ∈ l, ∀ o, w.state.output_heap[a]? = some o →
      o.freed = false ∧ o.surface.isSome = true ∧ o.layer_surface.isSome = true) :
    (l.foldl destroy_output w).state.undefined_behaviour = false := by
  induction l generalizing w with
  | nil => exact hub
  | cons a l ih =>
    obtain ⟨hna, hnl⟩ := List.nodup_cons.mp hnodup
    apply ih (destroy_output w a) hnl
    · unfold destroy_output
      split
      · exact hub
      · rename_i o ho
        obtain ⟨f1, f2, f3⟩ := hl a (List.mem_cons_self a l) o ho
        have hs : o.surface.isNone = false := by
          cases hs : o.surface
          · rw [hs] at f2
            cases f2
          · rfl
        have hls : o.layer_surface.isNone = false := by
          cases hs : o.layer_surface
          · rw [hs] at f3
            cases f3
          · rfl
        simp [emit, store_output, undefined_if, hub, f1, hs, hls]
    · intro b hb o' ho'
      have hba : a ≠ b := by
        intro hab
        rw [hab] at hna
        exact hna hb
      apply hl b (List.mem_cons_of_mem a hb) o'
      unfold destroy_output at ho'
      split at ho'
      · exact ho'
      · simpa [emit, store_output, undefined_if, List.getElem?_set, hba] using ho'

/-- The teardown of a session with sound outputs is defined. -/
theorem teardown_defined (w : World) (h : outputs_sound w.state) :
    (teardown w).state.undefined_behaviour = false := by
  obtain ⟨h1, h2, h3⟩ := h
  obtain ⟨p1, p2, p3⟩ := destroy_pointer_foldl_outputs w.state.pointers w
  unfold teardown
  apply destroy_output_foldl_defined
  · rw [p2]
    exact h2
  · rw [p1]
    exact h1
  · intro a _ o ho
    rw [p3] at ho
    exact h3 o (mem_of_getElem? _ _ _ ho)

/-- An event that is not a release changes neither the running flag nor the result. -/
theorem dispatch_result (pool : BufferPool) (w : World) (e : Event)
    (he : is_release e = false) :
    (dispatch pool w e).state.running = w.state.running ∧
    (dispatch pool w e).state.result = w.state.result := by
  cases e with
  | global name interface version =>
    exact (handle_global_pointer_heap w name interface).2
  | seat_capabilities seat capabilities wl_pointer calloc_ok =>
    exact (seat_handle_capabilities_pointer_heap w seat capabilities wl_pointer calloc_ok).2
  | pointer_motion b time fx fy =>
    simp only [dispatch]
    cases hq : w.state.pointer_heap[b]? with
    | none => simp [pointer_handle_motion, hq]
    | some q => exact (motion_pointer_heap pool w b fx fy q hq).2
  | pointer_button b serial time button bs =>
    simp only [dispatch]
    have h0 : bs ≠ WL_POINTER_BUTTON_STATE_RELEASED := by
      intro h
      simp [is_release, h] at he
    cases hq : w.state.pointer_heap[b]? with
    | none => simp [pointer_handle_button, hq]
    | some q =>
      by_cases h1 : bs = WL_POINTER_BUTTON_STATE_PRESSED
      · subst h1
        exact (press_pointer_heap pool w b q hq).2
      · rw [other_button_state pool w b bs q hq h1 h0]
        exact ⟨rfl, rfl⟩
  | layer_surface_configure b serial width height =>
    exact (configure_pointer_heap pool w b serial width height).2
  | layer_surface_closed b =>
    exact (closed_pointer_heap w b).2

theorem dispatch_batch_result (pool : BufferPool) (events : List Event) (w : World)
    (he : ∀ e ∈ events, is_release e = false) :
    (dispatch_batch pool w events).state.running = w.state.running ∧
    (dispatch_batch pool w events).state.result = w.state.result := by
  induction events generalizing w with
  | nil => exact ⟨rfl, rfl⟩
  | cons e es ih =>
    obtain ⟨i1, i2⟩ := ih (dispatch pool w e) (fun x hx => he x (List.mem_cons_of_mem e hx))
    obtain ⟨d1, d2⟩ := dispatch_result pool w e (he e (List.mem_cons_self e es))
    exact ⟨i1.trans d1, i2.trans d2⟩

/-! ## A press, what follows, and the release -/

theorem pointer_at_iff (w : World) (a : Nat) (x y : Int) :
    pointer_at w a x y ↔ ∃ p, w.state.pointer_heap[a]? = some p ∧ p.x = x ∧ p.y = y := by
  unfold pointer_at
  cases h : w.state.pointer_heap[a]? with
  | none => simp
  | some p =>
    simp only [Option.map_some', Option.some.injEq, Prod.mk.injEq]
    constructor
    · intro hxy
      exact ⟨p, rfl, hxy.1, hxy.2⟩
    · rintro ⟨q, hq, hx, hy⟩
      cases hq
      exact ⟨hx, hy⟩

theorem after_press (pool : BufferPool) (v : World) (a serial time button : Nat)
    (p : slurg_pointer) (hp : v.state.pointer_heap[a]? = some p) :
    (dispatch pool v (Event.pointer_button a serial time button
        WL_POINTER_BUTTON_STATE_PRESSED)).state.pointer_heap[a]? =
      some { p with button_state := WL_POINTER_BUTTON_STATE_PRESSED,
                    pressed_x := p.x, pressed_y := p.y } := by
  simp only [dispatch]
  rw [(press_pointer_heap pool v a p hp).1]
  exact getElem?_set_same _ _ _ _ hp

theorem pointer_get_box_at_rest (p : slurg_pointer) (hx : p.x = p.pressed_x)
    (hy : p.y = p.pressed_y) :
    pointer_get_box p = { x := p.pressed_x, y := p.pressed_y, width := 0, height := 0 } := by
  simp only [pointer_get_box, hx, hy, Slurg.min, int_sub, Slurg.abs, sub_self, wrap_int]
  simp

theorem dispatch_batch_cons (pool : BufferPool) (w : World) (e : Event)
    (events : List Event) :
    dispatch_batch pool w (e :: events) = dispatch_batch pool (dispatch pool w e) events :=
  rfl

/-- How `main` ends a session of this shape: it starts up; the events before the release
are `before`, a press of pointer `a` at P, and events `mid` free of button events of `a`
that leave it at R; no release is dispatched in an earlier batch or behind the release
in its own batch; and no event closes or adds an output.  Then `main` returns what
`main_finish` makes of a world that is not running, has printed nothing, has sound
outputs and holds the box of a pointer pressed at P and now at R. -/
theorem session_ends (pool : BufferPool) (env : Env) (w : World) (a : Nat)
    (earlier : List (List Event)) (last before mid post : List Event)
    (rest : List (Option (List Event))) (s1 t1 b1 s2 t2 b2 : Nat) (Px Py Rx Ry : Int)
    (hsetup : main_setup env = Except.ok w)
    (hbatches : env.batches = earlier.map some ++
      some (last ++ Event.pointer_button a s2 t2 b2 WL_POINTER_BUTTON_STATE_RELEASED :: post)
        :: rest)
    (hevents : earlier.flatten ++ last =
      before ++ Event.pointer_button a s1 t1 b1 WL_POINTER_BUTTON_STATE_PRESSED :: mid)
    (hearlier : ∀ e ∈ earlier.flatten, is_release e = false)
    (hpost : ∀ e ∈ post, is_release e = false)
    (hmid : ∀ e ∈ mid, is_button_of a e = false)
    (hkeep : ∀ e ∈ earlier.flatten ++ last ++ post, keeps_outputs e = true)
    (hP : pointer_at (dispatch_batch pool w before) a Px Py)
    (hR : pointer_at (dispatch_batch pool w (before ++
      Event.pointer_button a s1 t1 b1 WL_POINTER_BUTTON_STATE_PRESSED :: mid)) a Rx Ry) :
    ∃ vf q, main pool env = some (main_finish vf) ∧ vf.state.running = false ∧
      vf.state.result = pointer_get_box q ∧
      q.pressed_x = Px ∧ q.pressed_y = Py ∧ q.x = Rx ∧ q.y = Ry ∧
      (dispatch_batch pool w (earlier.flatten ++ last)).state.pointer_heap[a]? = some q ∧
      stdout_text vf.trace = "" ∧ outputs_sound vf.state := by
  obtain ⟨hrun, hquiet, _⟩ := main_setup_facts env w hsetup
  have hsound := main_setup_sound env w hsetup
  -- the pointer at the press and at the release
  obtain ⟨pB, hpB, hBx, hBy⟩ := (pointer_at_iff _ a Px Py).mp hP
  obtain ⟨q, hq, hqx, hqy⟩ := (pointer_at_iff _ a Rx Ry).mp hR
  have hpress := after_press pool (dispatch_batch pool w before) a s1 t1 b1 pB hpB
  obtain ⟨q', hq', hb, _⟩ := dispatch_batch_pointer pool mid _ a _ hpress
  rw [← dispatch_batch_cons, ← dispatch_batch_append] at hq'
  rw [hq'] at hq
  cases hq
  obtain ⟨hpx, hpy⟩ := hb hmid
  rw [← hevents] at hq'
  -- the world after the last batch
  have hrel := release_state pool (dispatch_batch pool w (earlier.flatten ++ last)) a q hq'
  have hpostres := dispatch_batch_result pool post
    (dispatch pool (dispatch_batch pool w (earlier.flatten ++ last))
      (Event.pointer_button a s2 t2 b2 WL_POINTER_BUTTON_STATE_RELEASED)) hpost
  have hfinal : dispatch_batch pool (dispatch_batch pool w earlier.flatten)
      (last ++ Event.pointer_button a s2 t2 b2 WL_POINTER_BUTTON_STATE_RELEASED :: post) =
      dispatch_batch pool
        (dispatch pool (dispatch_batch pool w (earlier.flatten ++ last))
          (Event.pointer_button a s2 t2 b2 WL_POINTER_BUTTON_STATE_RELEASED)) post := by
    rw [dispatch_batch_append, dispatch_batch_cons, ← dispatch_batch_append]
  have hstep : dispatch pool (dispatch_batch pool w (earlier.flatten ++ last))
      (Event.pointer_button a s2 t2 b2 WL_POINTER_BUTTON_STATE_RELEASED) =
      pointer_handle_button pool (dispatch_batch pool w (earlier.flatten ++ last)) a
        WL_POINTER_BUTTON_STATE_RELEASED := rfl
  have hvrun : (dispatch_batch pool (dispatch_batch pool w earlier.flatten)
      (last ++ Event.pointer_button a s2 t2 b2 WL_POINTER_BUTTON_STATE_RELEASED :: post)
      ).state.running = false := by
    rw [hfinal, hpostres.1, hstep, hrel]
  have hvres : (dispatch_batch pool (dispatch_batch pool w earlier.flatten)
      (last ++ Event.pointer_button a s2 t2 b2 WL_POINTER_BUTTON_STATE_RELEASED :: post)
      ).state.result = pointer_get_box q := by
    rw [hfinal, hpostres.2, hstep, hrel]
  -- the loop
  have hrun0 : (dispatch_batch pool w earlier.flatten).state.running = true :=
    (dispatch_batch_running pool _ w hearlier).trans hrun
  have hearlier' : ∀ batch ∈ earlier, ∀ e ∈ batch, is_release e = false :=
    fun batch hb e he => hearlier e (List.mem_flatten.mpr ⟨batch, hb, he⟩)
  have hmain : main pool env = some (main_finish
      (dispatch_batch pool (dispatch_batch pool w earlier.flatten)
        (last ++ Event.pointer_button a s2 t2 b2 WL_POINTER_BUTTON_STATE_RELEASED :: post))) := by
    simp only [main, hsetup, hbatches]
    rw [event_loop_skip pool earlier w _ hrun hearlier',
      event_loop_batch pool _ _ rest hrun0, event_loop_stopped pool _ rest hvrun]
  -- soundness
  have hsound' : outputs_sound (dispatch_batch pool (dispatch_batch pool w earlier.flatten)
      (last ++ Event.pointer_button a s2 t2 b2 WL_POINTER_BUTTON_STATE_RELEASED :: post)
      ).state := by
    rw [← dispatch_batch_append]
    apply dispatch_batch_sound pool _ w hsound
    intro e he
    rcases List.mem_append.mp he with h | h
    · exact hkeep e (List.mem_append.mpr (Or.inl (List.mem_append.mpr (Or.inl h))))
    · rcases List.mem_append.mp h with h | h
      · exact hkeep e (List.mem_append.mpr (Or.inl (List.mem_append.mpr (Or.inr h))))
      · rcases List.mem_cons.mp h with h | h
        · rw [h]
          rfl
        · exact hkeep e (List.mem_append.mpr (Or.inr h))
  refine ⟨_, q, hmain, hvrun, hvres, hpx.trans hBx, hpy.trans hBy, hqx, hqy, hq', ?_,
    hsound'⟩
  rw [dispatch_batch_stdout, dispatch_batch_stdout]
  exact hquiet

/-! ## C1 and C3: what `main` reports after a press and a release -/

/-- C2: for every pointer state whose coordinate differences are representable as `int`
(where the C expressions are defined), `pointer_get_box` yields
`x = min(pressed_x, x)`, `y = min(pressed_y, y)`, `width = |x - pressed_x|`,
`height = |y - pressed_y|`; the rectangle is a function of the four coordinates alone, and
the release handler, its caller, leaves the pointer's coordinates as they were, so that a
second release stores the same rectangle and leaves the same world.  Every pointer state of
a session - after startup and any events whose motion coordinates are 32-bit `wl_fixed_t`
values - has representable differences. -/
theorem pointer_get_box_spec (p : slurg_pointer)
    (hx : |p.x - p.pressed_x| ≤ INT_MAX) (hy : |p.y - p.pressed_y| ≤ INT_MAX) :
    pointer_get_box p =
      { x := Min.min p.pressed_x p.x, y := Min.min p.pressed_y p.y,
        width := |p.x - p.pressed_x|, height := |p.y - p.pressed_y| } ∧
    (∀ q : slurg_pointer, q.x = p.x → q.y = p.y → q.pressed_x = p.pressed_x →
      q.pressed_y = p.pressed_y → pointer_get_box q = pointer_get_box p) ∧
    (∀ (pool : BufferPool) (w : World) (a : Nat), w.state.pointer_heap[a]? = some p →
      (pointer_handle_button pool w a WL_POINTER_BUTTON_STATE_RELEASED).state.pointer_heap[a]?
          = some { p with button_state := WL_POINTER_BUTTON_STATE_RELEASED } ∧
      (pointer_handle_button pool w a WL_POINTER_BUTTON_STATE_RELEASED).state.result
          = pointer_get_box p ∧
      pointer_handle_button pool
          (pointer_handle_button pool w a WL_POINTER_BUTTON_STATE_RELEASED) a
          WL_POINTER_BUTTON_STATE_RELEASED
        = pointer_handle_button pool w a WL_POINTER_BUTTON_STATE_RELEASED) ∧
    (∀ (pool : BufferPool) (env : Env) (w : World) (events : List Event) (a : Nat)
        (q : slurg_pointer), main_setup env = Except.ok w →
      (∀ e ∈ events, wire_valid e) →
      (dispatch_batch pool w events).state.pointer_heap[a]? = some q →
      |q.x - q.pressed_x| ≤ INT_MAX ∧ |q.y - q.pressed_y| ≤ INT_MAX) := by
  refine ⟨?_, ?_, ?_, ?_⟩
  · simp only [pointer_get_box, min_eq_min, abs_int_sub _ _ hx, abs_int_sub _ _ hy]
  · intro q h1 h2 h3 h4
    simp only [pointer_get_box, h1, h2, h3, h4]
  · intro pool w a ha
    have hlt : a < w.state.pointer_heap.length := by
      rcases Nat.lt_or_ge a w.state.pointer_heap.length with h1 | h1
      · exact h1
      · rw [List.getElem?_eq_none h1] at ha
        cases ha
    have h1 : pointer_handle_button pool w a WL_POINTER_BUTTON_STATE_RELEASED =
        { state := { w.state with
            pointer_heap := w.state.pointer_heap.set a
              { p with button_state := WL_POINTER_BUTTON_STATE_RELEASED },
            result := pointer_get_box { p with button_state := WL_POINTER_BUTTON_STATE_RELEASED },
            running := false },
          trace := w.trace } := by
      simp [pointer_handle_button, ha, store_pointer, WL_POINTER_BUTTON_STATE_RELEASED,
        WL_POINTER_BUTTON_STATE_PRESSED]
    refine ⟨?_, ?_, ?_⟩
    · rw [h1]
      simp [hlt]
    · rw [h1]
      rfl
    · rw [h1]
      simp [pointer_handle_button, store_pointer, hlt, WL_POINTER_BUTTON_STATE_RELEASED,
        WL_POINTER_BUTTON_STATE_PRESSED]
  · intro pool env w events a q hsetup hev hq
    exact in_range_representable q (dispatch_batch_in_range pool events w
      (main_setup_facts env w hsetup).2.2 hev q (mem_of_getElem? _ _ _ hq))

/-- C2 at a concrete pointer: pressed at (100,100), now at (400,300). -/
theorem pointer_get_box_spec_witness :
    pointer_get_box dragged_pointer =
      { x := Min.min 100 400, y := Min.min 100 300, width := |400 - 100|,
        height := |300 - 100| } :=
  (pointer_get_box_spec dragged_pointer (by decide) (by decide)).1

/-- C10 as amended: in every session, after startup and any sequence of events whose motion
coordinates are 32-bit `wl_fixed_t` values, a release stores a width and a height that are
non-negative and equal to the absolute coordinate differences; the stored `x` and `y` are
the minima of the press-origin and current coordinates, so each is non-negative exactly when
both of its coordinates are. -/
theorem release_box_signs (pool : BufferPool) (env : Env) (w : World) (events : List Event)
    (a serial time button : Nat) (p : slurg_pointer)
    (hsetup : main_setup env = Except.ok w)
    (he : ∀ e ∈ events, wire_valid e)
    (hp : (dispatch_batch pool w events).state.pointer_heap[a]? = some p) :
    (dispatch_batch pool w (events ++ [Event.pointer_button a serial time button
        WL_POINTER_BUTTON_STATE_RELEASED])).state.result =
      { x := Min.min p.pressed_x p.x, y := Min.min p.pressed_y p.y,
        width := |p.x - p.pressed_x|, height := |p.y - p.pressed_y| } ∧
    0 ≤ (dispatch_batch pool w (events ++ [Event.pointer_button a serial time button
        WL_POINTER_BUTTON_STATE_RELEASED])).state.result.width ∧
    0 ≤ (dispatch_batch pool w (events ++ [Event.pointer_button a serial time button
        WL_POINTER_BUTTON_STATE_RELEASED])).state.result.height ∧
    (0 ≤ (dispatch_batch pool w (events ++ [Event.pointer_button a serial time button
        WL_POINTER_BUTTON_STATE_RELEASED])).state.result.x ↔ 0 ≤ p.pressed_x ∧ 0 ≤ p.x) ∧
    (0 ≤ (dispatch_batch pool w (events ++ [Event.pointer_button a serial time button
        WL_POINTER_BUTTON_STATE_RELEASED])).state.result.y ↔ 0 ≤ p.pressed_y ∧ 0 ≤ p.y) := by
  have hin := dispatch_batch_in_range pool events w (main_setup_facts env w hsetup).2.2 he p
    (mem_of_getElem? _ _ _ hp)
  obtain ⟨hx, hy⟩ := in_range_representable p hin
  have hres : (dispatch_batch pool w (events ++ [Event.pointer_button a serial time button
      WL_POINTER_BUTTON_STATE_RELEASED])).state.result =
      { x := Min.min p.pressed_x p.x, y := Min.min p.pressed_y p.y,
        width := |p.x - p.pressed_x|, height := |p.y - p.pressed_y| } := by
    rw [dispatch_batch_append]
    have hstep : dispatch_batch pool (dispatch_batch pool w events)
        [Event.pointer_button a serial time button WL_POINTER_BUTTON_STATE_RELEASED] =
        pointer_handle_button pool (dispatch_batch pool w events) a
          WL_POINTER_BUTTON_STATE_RELEASED := rfl
    rw [hstep, release_state pool _ a p hp]
    simp only [pointer_get_box, min_eq_min, abs_int_sub _ _ hx, abs_int_sub _ _ hy]
  rw [hres]
  exact ⟨rfl, abs_nonneg _, abs_nonneg _, le_min_iff, le_min_iff⟩

/-- C10 at the first end-to-end scenario: configure, then the drag from (100,100) to
(400,300). -/
theorem release_box_signs_witness :
    (dispatch_batch free_pool (world_after_setup one_output_handshake)
        (Event.layer_surface_configure 0 1 1920 1080 :: drag_events ++
          [Event.pointer_button 0 2 13 272 WL_POINTER_BUTTON_STATE_RELEASED])).state.result =
      { x := 100, y := 100, width := 300, height := 200 } ∧
    0 ≤ (dispatch_batch free_pool (world_after_setup one_output_handshake)
        (Event.layer_surface_configure 0 1 1920 1080 :: drag_events ++
          [Event.pointer_button 0 2 13 272
            WL_POINTER_BUTTON_STATE_RELEASED])).state.result.width :=
  ⟨(release_box_signs free_pool scenario_one_env (world_after_setup one_output_handshake)
      (Event.layer_surface_configure 0 1 1920 1080 :: drag_events) 0 2 13 272
      dragged_pointer rfl (by decide) (by decide)).1,
   (release_box_signs free_pool scenario_one_env (world_after_setup one_output_handshake)
      (Event.layer_surface_configure 0 1 1920 1080 :: drag_events) 0 2 13 272
      dragged_pointer rfl (by decide) (by decide)).2.1⟩

/-- C10 fails as stated: pressing at (5,5) and releasing at (-3,-3) stores the origin
(-3,-3), and with wrapping arithmetic a pointer pressed at 0 and now at `INT_MIN` gets the
width `INT_MIN`. -/
theorem release_box_negative :
    (dispatch_batch free_pool (one_output_world free_pool) drag_out_events).state.result =
      { x := -3, y := -3, width := 8, height := 8 } ∧
    (pointer_get_box extreme_pointer).width = -2147483648 := by
  constructor
  · decide
  · decide

end Slurg
